import Mathlib

/-!
# Directory watcher of vifm (`src/utils/fswatch_nix.c`)

A shallow embedding of both build variants of the watcher:

* namespace `inotify`: the `HAVE_INOTIFY` branch (lines 23-223), i.e. the
  handle with a statistics trie, the drain loop of `fswatch_changed` and the
  per-file debounce policy `update_file_stats`;
* namespace `poll`: the `#else` branch (lines 225-291), i.e. the handle with
  a stored stamp and the comparing `fswatch_changed`.

Conventions of the embedding:

* `time_t` is `Int` (a signed 64 bit integer on the LP64 targets of the
  inotify branch; no wrap-around is modelled for second counts);
* `uint32_t` is `Nat`, complement is taken modulo `2 ^ 32` (`bnot32`);
* `int count` is an `Int` kept in the range of a 32 bit `int`; the increment
  `count + 1` of line 210 goes through `int_wrap`, the two's complement
  wrap-around of the build (signed overflow is undefined behaviour in C, and
  is reached after `2 ^ 31 - 1` reported events of one burst);
* C truth values (`int` used as 0 / non-zero, `*error`) are `Bool`;
* everything the C code obtains from its environment (the clock, `malloc`,
  `read`, the file system) is an explicit argument.
-/

/-- Resources a call of `fswatch_create` can acquire: the block of the
handle (`malloc`), the statistics trie (`trie_create`), the inotify
descriptor (`inotify_init1`) and, in the polling branch, the copy of the path
(`strdup`). -/
inductive resource_t where
  | handle
  | stats_trie
  | inotify_fd
  | path_copy
deriving DecidableEq

namespace inotify

/-! ## Constants of `<sys/inotify.h>` used by the source -/

def IN_MODIFY : Nat := 0x00000002
def IN_ATTRIB : Nat := 0x00000004
def IN_CLOSE_WRITE : Nat := 0x00000008
def IN_MOVED_FROM : Nat := 0x00000040
def IN_MOVED_TO : Nat := 0x00000080
def IN_CREATE : Nat := 0x00000100
def IN_DELETE : Nat := 0x00000200

def INT_MAX : Int := 2147483647
def INT_MIN : Int := -2147483648

/-- The value an `int` computation leaves on the build in use: the
mathematical result wrapped into `INT_MIN .. INT_MAX` (two's complement). -/
def int_wrap (x : Int) : Int := (x + 2147483648) % 4294967296 - 2147483648

/-- Complement on `uint32_t` (the C operator `~` at that type). -/
def bnot32 (x : Nat) : Nat := (2 ^ 32 - 1) ^^^ (x % 2 ^ 32)

/-- Record `notif_stat_t` (lines 47-55): per file statistics information. -/
structure notif_stat_t where
  last_update : Int
  banned_until : Int
  ban_mask : Nat
  count : Int
deriving DecidableEq

/-- The fields of `struct inotify_event` read by the source: `mask`, `len`
and the NUL-terminated `name` (meaningful when `len` is not zero). -/
structure inotify_event where
  mask : Nat
  len : Nat
  name : String
deriving DecidableEq

/-- Modelled from the spec: `trie.h` / `trie.c` are not among the sources.  The
spec describes the statistics map as "an associative container keyed by
byte-string file names, supporting point insert, point lookup"; it is a finite
map from names to the `notif_stat_t` each stored pointer refers to. -/
def trie_t : Type := String → Option notif_stat_t

/-- Modelled from the spec: `trie_create()` yields a map without entries. -/
def trie_create : trie_t := fun _ => none

/-- Modelled from the spec: point lookup; `none` stands for the non-zero
return value of `trie_get` (no such key). -/
def trie_get (t : trie_t) (key : String) : Option notif_stat_t := t key

/-- Modelled from the spec: a point insert that succeeded (`trie_set`
returned zero).  It also writes back a record modified through the pointer
that `trie_get` handed out. -/
def trie_set (t : trie_t) (key : String) (data : notif_stat_t) : trie_t :=
  fun k => if k = key then some data else t k

/-- Watcher data `struct fswatch_t` of the inotify branch (lines 40-44). -/
structure fswatch_t where
  fd : Int
  stats : trie_t

/-- Behaviour of the allocator during one call of `update_file_stats`:
whether `malloc(sizeof(*stats))` returns a block, the indeterminate content
that block has at the never assigned field `ban_mask`, and whether
`trie_set` then succeeds (it allocates trie nodes itself). -/
structure heap_t where
  malloc_ok : Bool
  junk_mask : Nat
  trie_set_ok : Bool
deriving DecidableEq

/-- What the environment answers during `fswatch_create` of the inotify
branch: whether `malloc` and `trie_create` succeed, the value of
`inotify_init1(flags)` and of `inotify_add_watch(fd, path, mask)` (each `-1`
on failure). -/
structure create_env where
  malloc_ok : Bool
  trie_create_ok : Bool
  inotify_init1 : Nat → Int
  inotify_add_watch : Int → String → Nat → Int

def IN_NONBLOCK : Nat := 0x00000800
def IN_CLOEXEC : Nat := 0x00080000
def IN_EXCL_UNLINK : Nat := 0x04000000

/-- Function `fswatch_create` of the inotify branch (lines 60-102).  Next
to the handle (`none` for `NULL`) the result lists the resources that were
acquired by the call and are not released when it returns; `free`, `close`
and `trie_free_with_data` remove their resource from that list (and do
nothing to a list without it, as `trie_free_with_data(NULL_TRIE)` at line
75). -/
def fswatch_create (env : create_env) (path : String) :
    Option fswatch_t × List resource_t :=
  if env.malloc_ok then
    let live : List resource_t := [resource_t.handle]
    -- Create tree to collect update frequency statistics.
    if env.trie_create_ok then
      let live := resource_t.stats_trie :: live
      -- Create inotify instance.
      let fd := env.inotify_init1 (IN_NONBLOCK ||| IN_CLOEXEC)
      if fd = -1 then
        (none, (live.erase resource_t.stats_trie).erase resource_t.handle)
      else
        let live := resource_t.inotify_fd :: live
        -- Add directory to watch.
        let wd := env.inotify_add_watch fd path
          (IN_ATTRIB ||| IN_MODIFY ||| IN_CREATE ||| IN_DELETE ||| IN_MOVED_FROM |||
            IN_MOVED_TO ||| IN_EXCL_UNLINK ||| IN_CLOSE_WRITE)
        if wd = -1 then
          (none, ((live.erase resource_t.inotify_fd).erase resource_t.stats_trie).erase
            resource_t.handle)
        else
          (some { fd := fd, stats := trie_create }, live)
    else
      (none, (live.erase resource_t.stats_trie).erase resource_t.handle)
  else
    (none, [])

def HITS_TO_BAN_AFTER : Int := 5
def BAN_SECS : Int := 5

def IMPORTANT_EVENTS : Nat := IN_CREATE ||| IN_DELETE ||| IN_MOVED_FROM ||| IN_MOVED_TO

/-- The local `fname` of `update_file_stats` (line 171): an event without a
name is about the watched directory and is accounted under `"."`. -/
def fname (e : inotify_event) : String := if e.len = 0 then "." else e.name

/-- Function `update_file_stats` (lines 163-223).  The result is the watcher
after the call and the return value (`true` for non-zero: an interesting
event).  A failed `trie_set` leaves the map as it was.  Assignments through
the pointer `stats` are written back into the map.  The sum `stats->count + 1`
of line 210 is an `int`: it goes through `int_wrap`. -/
def update_file_stats (h : heap_t) (w : fswatch_t) (e : inotify_event) (now : Int) :
    fswatch_t × Bool :=
  match trie_get w.stats (fname e) with
  | none =>
    if h.malloc_ok then
      let stats : notif_stat_t :=
        { last_update := now, banned_until := 0, ban_mask := h.junk_mask, count := 1 }
      if h.trie_set_ok then
        ({ w with stats := trie_set w.stats (fname e) stats }, true)
      else
        (w, true)
    else
      (w, true)
  | some data =>
    let stats : notif_stat_t := data
    -- Unban entry on any of the "important" events.
    let stats : notif_stat_t :=
      if e.mask &&& IMPORTANT_EVENTS ≠ 0 then
        { stats with banned_until := 0, count := 1 }
      else stats
    -- Ignore events during banned period, unless it's something new.
    if now < stats.banned_until ∧ e.mask &&& bnot32 stats.ban_mask = 0 then
      ({ w with stats := trie_set w.stats (fname e) stats }, false)
    else
      -- Treat events happened in the next second as a sequence.
      let stats : notif_stat_t :=
        { stats with count := if now - stats.last_update ≤ 1 then int_wrap (stats.count + 1) else 1 }
      -- Files that cause relatively long sequence of events are banned.
      let stats : notif_stat_t :=
        if stats.count > HITS_TO_BAN_AFTER then
          { stats with ban_mask := e.mask, banned_until := now + BAN_SECS }
        else stats
      let stats : notif_stat_t := { stats with last_update := now }
      ({ w with stats := trie_set w.stats (fname e) stats }, true)

/-- The statements of `update_file_stats` after a successful lookup (lines
194-222), on the record the pointer `stats` refers to: the record after the
call and the return value. -/
def known_step (data : notif_stat_t) (mask : Nat) (now : Int) : notif_stat_t × Bool :=
  let stats : notif_stat_t :=
    if mask &&& IMPORTANT_EVENTS ≠ 0 then { data with banned_until := 0, count := 1 } else data
  if now < stats.banned_until ∧ mask &&& bnot32 stats.ban_mask = 0 then
    (stats, false)
  else
    let stats : notif_stat_t :=
      { stats with count := if now - stats.last_update ≤ 1 then int_wrap (stats.count + 1) else 1 }
    let stats : notif_stat_t :=
      if stats.count > HITS_TO_BAN_AFTER then
        { stats with ban_mask := mask, banned_until := now + BAN_SECS }
      else stats
    ({ stats with last_update := now }, true)

/-- One event record of a batch, together with the behaviour of the
allocator while that record is processed. -/
structure record_t where
  heap : heap_t
  event : inotify_event
deriving DecidableEq

/-- Outcome of one `read(w->fd, buf, BUF_LEN)` (lines 133-143): a package of
whole event records (`nread >= 0`, and `nread = 0` exactly when there is no
record), `nread < 0` with `errno == EAGAIN`, or `nread < 0` with another
`errno`. -/
inductive read_result where
  | data (records : List record_t)
  | eagain
  | failure
deriving DecidableEq

/-- The `for` loop of `fswatch_changed` (lines 146-153) over the records of
one package, with the running value of `changed`. -/
def process_events (now : Int) : List record_t → fswatch_t → Bool → fswatch_t × Bool
  | [], w, changed => (w, changed)
  | r :: rest, w, changed =>
    let res := update_file_stats r.heap w r.event now
    process_events now rest res.1 (if res.2 then true else changed)

/-- What a call of `fswatch_changed` hands back: the watcher, the return
value `changed`, the out parameter `*error`, and (ghost) the number of
non-empty packages whose records were processed. -/
structure changed_result where
  w : fswatch_t
  changed : Bool
  error : Bool
  batches : Nat

/-- The `do ... while(nread != 0)` loop of `fswatch_changed` (lines
127-155).  `reads i` is what the `i`-th `read` of this call returns; `fuel`
bounds the number of iterations and `none` means the bound was reached
before the loop was left. -/
def fswatch_changed_loop (reads : Nat → read_result) (now : Int) :
    Nat → Nat → fswatch_t → Bool → Bool → Option changed_result
  | 0, _, _, _, _ => none
  | fuel + 1, i, w, changed, error =>
    match reads i with
    | read_result.eagain => some ⟨w, changed, error, i⟩
    | read_result.failure => some ⟨w, changed, true, i⟩
    | read_result.data records =>
      let res := process_events now records w changed
      if records.isEmpty then
        some ⟨res.1, res.2, error, i⟩
      else
        fswatch_changed_loop reads now fuel (i + 1) res.1 res.2 error

/-- Function `fswatch_changed` of the inotify branch (lines 115-158); `now`
is the value of `time(NULL)` sampled at line 123. -/
def fswatch_changed (fuel : Nat) (reads : Nat → read_result) (now : Int) (w : fswatch_t) :
    Option changed_result :=
  fswatch_changed_loop reads now fuel 0 w false false

/-- Test harness: events handed to `update_file_stats` one after another,
each with the clock value of the call that delivers it; collects the return
values. -/
def feed : fswatch_t → List (heap_t × inotify_event × Int) → fswatch_t × List Bool
  | w, [] => (w, [])
  | w, (h, e, now) :: rest =>
    let res := update_file_stats h w e now
    let tl := feed res.1 rest
    (tl.1, res.2 :: tl.2)

/-- Return values of `update_file_stats` over the records of one call, in
delivery order, with the map threaded through. -/
def verdicts (now : Int) : fswatch_t → List record_t → List Bool
  | _, [] => []
  | w, r :: rest =>
    let res := update_file_stats r.heap w r.event now
    res.2 :: verdicts now res.1 rest

/-- The map after `update_file_stats` went over the records in order. -/
def after_events (now : Int) : fswatch_t → List record_t → fswatch_t
  | w, [] => w
  | w, r :: rest => after_events now (update_file_stats r.heap w r.event now).1 rest

/-- Records of a `read` outcome (none for the two failing outcomes). -/
def records_of : read_result → List record_t
  | read_result.data records => records
  | _ => []

/-- Records delivered by the `n` reads starting with read number `i`. -/
def drained (reads : Nat → read_result) : Nat → Nat → List record_t
  | _, 0 => []
  | i, n + 1 => records_of (reads i) ++ drained reads (i + 1) n

/-- An outcome of `read` that ends the loop: `EAGAIN`, another failure, or
`nread = 0`. -/
def ends_drain : read_result → Bool
  | read_result.data records => records.isEmpty
  | _ => true

/-- The outcome `nread < 0` with an `errno` other than `EAGAIN`. -/
def read_failed : read_result → Bool
  | read_result.failure => true
  | _ => false

/-- A stream of `read` outcomes given by its first entries; afterwards the
descriptor has nothing to deliver (`EAGAIN`). -/
def stream_of (l : List read_result) : Nat → read_result :=
  fun i => l.getD i read_result.eagain

/-- What `update_file_stats` does to the entry of the event's name, as a
function of that entry alone: the entry afterwards (`none` while the name has
no record) and the return value.  Lines 177-192 for a missing entry,
`known_step` for a record. -/
def entry_step (h : heap_t) (entry : Option notif_stat_t) (mask : Nat) (now : Int) :
    Option notif_stat_t × Bool :=
  match entry with
  | none =>
    if h.malloc_ok then
      if h.trie_set_ok then
        (some { last_update := now, banned_until := 0, ban_mask := h.junk_mask, count := 1 },
          true)
      else (none, true)
    else (none, true)
  | some data => (some (known_step data mask now).1, (known_step data mask now).2)

/-- Clock values of a history of events: each at least `lo`, and
non-decreasing along the list. -/
def clock_ok : Int → List (heap_t × inotify_event × Int) → Bool
  | _, [] => true
  | lo, (_, _, now) :: rest => decide (lo ≤ now) && clock_ok now rest

/-- The clock value of the last event of a history (`lo` for the empty
history). -/
def last_clock : Int → List (heap_t × inotify_event × Int) → Int
  | lo, [] => lo
  | _, (_, _, now) :: rest => last_clock now rest

/-- Invariant of a record at clock value `clock`: it was last updated at a
non-negative time not after `clock`, its counter is in the range of `int`,
`banned_until` is 0 or at least `BAN_SECS`, and no ban reaches further than
`BAN_SECS` past the last update. -/
def stat_ok (clock : Int) (s : notif_stat_t) : Prop :=
  0 ≤ s.last_update ∧ s.last_update ≤ clock ∧ (INT_MIN ≤ s.count ∧ s.count ≤ INT_MAX) ∧
    (s.banned_until = 0 ∨ 5 ≤ s.banned_until) ∧ s.banned_until ≤ s.last_update + 5

instance (clock : Int) (s : notif_stat_t) : Decidable (stat_ok clock s) := by
  unfold stat_ok
  infer_instance

/-- The record after lines 196-201 of `update_file_stats` ("unban entry on
any of the important events"), before the ban test and the counting. -/
def unban_if_important (data : notif_stat_t) (mask : Nat) : notif_stat_t :=
  if mask &&& IMPORTANT_EVENTS ≠ 0 then { data with banned_until := 0, count := 1 } else data

/-- Mask of event number `k` (counted from 0) of `long_burst`: `IN_MODIFY`
and `IN_ATTRIB` in turn. -/
def burst_mask (k : Nat) : Nat := if k % 2 = 0 then IN_MODIFY else IN_ATTRIB

/-- Event number `k` of `long_burst`: about the name `a`, delivered at clock
value 10 with a working allocator. -/
def burst_event (k : Nat) : heap_t × inotify_event × Int :=
  (⟨true, 0, true⟩, ⟨burst_mask k, 2, "a"⟩, 10)

/-- A burst of `n` events for the name `a` whose kinds alternate, all
delivered at the clock value 10 (as the records drained by one call of
`fswatch_changed` are, which samples the clock once). -/
def long_burst (n : Nat) : List (heap_t × inotify_event × Int) :=
  (List.range n).map burst_event

/-- Records that are all about the name `name` and whose masks alternate
`a`, `b`, `a`, `b`, ... -/
def alternates (a b : Nat) (name : String) : List record_t → Bool
  | [] => true
  | r :: rest =>
    decide (r.event.mask = a) && decide (fname r.event = name) && alternates b a name rest

end inotify

namespace poll

/-- Watcher data `struct fswatch_t` of the polling branch (lines 232-236).
`filemon.h` is not among the sources: the stamp type `filemon_t` is a
parameter. -/
structure fswatch_t (filemon_t : Type) where
  filemon : filemon_t
  path : String

/-- Modelled from the spec: `filemon_assign` is declared in the absent
`filemon.h`; the spec has the call "overwrite the stored Fingerprint with the
newly observed value". -/
def filemon_assign {filemon_t : Type} (_lhs : filemon_t) (rhs : filemon_t) : filemon_t := rhs

/-- Function `fswatch_create` of the polling branch (lines 238-261).
`malloc_ok` and `strdup_ok` tell whether the two allocations succeed,
`filemon_from_file` is the absent stamp primitive on the file system at the
time of the call (`none` for a non-zero return value).  Next to the handle
(`none` for `NULL`) the result lists the resources that were acquired by the
call and are not released when it returns. -/
def fswatch_create {filemon_t : Type} (malloc_ok : Bool)
    (filemon_from_file : String → Option filemon_t) (strdup_ok : Bool) (path : String) :
    Option (fswatch_t filemon_t) × List resource_t :=
  if malloc_ok then
    let live : List resource_t := [resource_t.handle]
    match filemon_from_file path with
    | none => (none, live.erase resource_t.handle)
    | some filemon =>
      if strdup_ok then
        (some { filemon := filemon, path := path }, resource_t.path_copy :: live)
      else
        (none, live.erase resource_t.handle)
  else
    (none, [])

/-- What a call of `fswatch_changed` hands back: the watcher, the return
value and the out parameter `*error`. -/
structure changed_result (filemon_t : Type) where
  w : fswatch_t filemon_t
  changed : Bool
  error : Bool

/-- Function `fswatch_changed` of the polling branch (lines 273-291);
`filemon_from_file` and `filemon_equal` are the primitives of the absent
`filemon.h`, the former on the file system at the time of the call. -/
def fswatch_changed {filemon_t : Type} (filemon_from_file : String → Option filemon_t)
    (filemon_equal : filemon_t → filemon_t → Bool) (w : fswatch_t filemon_t) :
    changed_result filemon_t :=
  match filemon_from_file w.path with
  | none => { w := w, changed := true, error := true }
  | some filemon =>
    let changed := !filemon_equal w.filemon filemon
    { w := { w with filemon := filemon_assign w.filemon filemon }, changed := changed,
      error := false }

/-- Test harness: consecutive calls of `fswatch_changed`, the `k`-th one on
the file system state `fss[k]`; collects `(changed, error)` of every call. -/
def calls {filemon_t : Type} (filemon_equal : filemon_t → filemon_t → Bool) :
    fswatch_t filemon_t → List (String → Option filemon_t) →
    fswatch_t filemon_t × List (Bool × Bool)
  | w, [] => (w, [])
  | w, fs :: rest =>
    let res := fswatch_changed fs filemon_equal w
    let tl := calls filemon_equal res.w rest
    (tl.1, (res.changed, res.error) :: tl.2)

/-- A file system on which the stamp of every path is `f`. -/
def stamped {filemon_t : Type} (f : filemon_t) : String → Option filemon_t := fun _ => some f

end poll

/-! ## Lemmas on the statistics map and on masks -/

namespace inotify

theorem trie_get_set_same (t : trie_t) (k : String) (v : notif_stat_t) :
    trie_get (trie_set t k v) k = some v := by
  simp [trie_get, trie_set]

/-- Inside the range of `int` nothing wraps. -/
theorem int_wrap_of_range (x : Int) (hlo : -2147483648 ≤ x) (hhi : x ≤ 2147483647) :
    int_wrap x = x := by
  unfold int_wrap
  omega

/-- The result of `int_wrap` is an `int`. -/
theorem int_wrap_range (x : Int) : INT_MIN ≤ int_wrap x ∧ int_wrap x ≤ INT_MAX := by
  unfold int_wrap INT_MIN INT_MAX
  omega

/-- The increment of `INT_MAX` wraps to `INT_MIN`. -/
theorem int_wrap_overflow : int_wrap (INT_MAX + 1) = INT_MIN := by
  decide

theorem int_wrap_two : int_wrap 2 = 2 := by
  decide

theorem trie_get_set_other (t : trie_t) (k k2 : String) (v : notif_stat_t) (hk : k2 ≠ k) :
    trie_get (trie_set t k v) k2 = trie_get t k2 := by
  simp [trie_get, trie_set, hk]

theorem and_bnot32_self (m : Nat) : m &&& bnot32 m = 0 := by
  apply Nat.eq_of_testBit_eq
  intro i
  simp only [bnot32, Nat.testBit_and, Nat.testBit_xor, Nat.testBit_two_pow_sub_one,
    Nat.testBit_mod_two_pow, Nat.zero_testBit]
  by_cases hi : i < 32 <;> cases m.testBit i <;> simp [hi]

/-- On a known name `update_file_stats` is `known_step` on the stored
record, written back under the same key. -/
theorem update_file_stats_known (h : heap_t) (w : fswatch_t) (e : inotify_event) (now : Int)
    (data : notif_stat_t) (hget : trie_get w.stats (fname e) = some data) :
    update_file_stats h w e now =
      (⟨w.fd, trie_set w.stats (fname e) (known_step data e.mask now).1⟩,
        (known_step data e.mask now).2) := by
  unfold update_file_stats known_step
  rw [hget]
  dsimp only
  split_ifs <;> rfl

/-- On an unseen name with a working allocator a fresh record is stored. -/
theorem update_file_stats_unseen (h : heap_t) (w : fswatch_t) (e : inotify_event) (now : Int)
    (hget : trie_get w.stats (fname e) = none) (hm : h.malloc_ok = true)
    (hs : h.trie_set_ok = true) :
    update_file_stats h w e now =
      (⟨w.fd, trie_set w.stats (fname e) ⟨now, 0, h.junk_mask, 1⟩⟩, true) := by
  unfold update_file_stats
  rw [hget]
  simp [hm, hs]

end inotify

/-! ## The debounce policy on one record -/

namespace inotify

theorem trie_set_set (t : trie_t) (k : String) (a b : notif_stat_t) :
    trie_set (trie_set t k a) k b = trie_set t k b := by
  funext x
  by_cases hx : x = k <;> simp [trie_set, hx]

/-- A step of `update_file_stats` on a name whose record was just stored. -/
theorem update_file_stats_on_set (h : heap_t) (fd : Int) (t : trie_t) (e : inotify_event)
    (now : Int) (s : notif_stat_t) :
    update_file_stats h ⟨fd, trie_set t (fname e) s⟩ e now =
      (⟨fd, trie_set t (fname e) (known_step s e.mask now).1⟩, (known_step s e.mask now).2) := by
  rw [update_file_stats_known h _ e now s (trie_get_set_same t (fname e) s)]
  simp only [trie_set_set]

/-- An ordinary event inside a burst that stays at or below the threshold:
counted, reported, ban fields untouched. -/
theorem known_step_counted (s : notif_stat_t) (mask : Nat) (now : Int)
    (hmask : mask &&& IMPORTANT_EVENTS = 0) (hnb : ¬ now < s.banned_until)
    (hnear : now - s.last_update ≤ 1) (hc : s.count + 1 ≤ 5)
    (hlo : -2147483648 ≤ s.count + 1) :
    known_step s mask now = (⟨now, s.banned_until, s.ban_mask, s.count + 1⟩, true) := by
  have hc2 : ¬ (s.count + 1 > 5) := by omega
  have hw : int_wrap (s.count + 1) = s.count + 1 := int_wrap_of_range _ hlo (by omega)
  simp [known_step, hmask, hnb, hnear, HITS_TO_BAN_AFTER, hc2, hw]

/-- An ordinary event that brings the counter above the threshold: reported,
and the ban is entered with the mask of this event. -/
theorem known_step_enters_ban (s : notif_stat_t) (mask : Nat) (now : Int)
    (hmask : mask &&& IMPORTANT_EVENTS = 0) (hnb : ¬ now < s.banned_until)
    (hnear : now - s.last_update ≤ 1) (hc : 5 < s.count + 1)
    (hhi : s.count + 1 ≤ 2147483647) :
    known_step s mask now = (⟨now, now + 5, mask, s.count + 1⟩, true) := by
  have hc2 : s.count + 1 > 5 := by omega
  have hw : int_wrap (s.count + 1) = s.count + 1 := int_wrap_of_range _ (by omega) hhi
  simp [known_step, hmask, hnb, hnear, HITS_TO_BAN_AFTER, BAN_SECS, hc2, hw]

/-- An ordinary event during the ban that brings no new kind: not reported,
record untouched. -/
theorem known_step_suppressed (s : notif_stat_t) (mask : Nat) (now : Int)
    (hmask : mask &&& IMPORTANT_EVENTS = 0) (hb : now < s.banned_until)
    (hsub : mask &&& bnot32 s.ban_mask = 0) :
    known_step s mask now = (s, false) := by
  simp [known_step, hmask, hb, hsub]

end inotify

/-! ## C1: a burst of identical ordinary events -/

namespace inotify

/-- C1 (as stated, refuted): six `IN_MODIFY` events for the unseen name `a`
at the clock values 10, 11, ..., 15 (each within one second of the previous
one, allocator working) are all reported; the sixth one is not suppressed. -/
theorem burst_sixth_event_reported :
    trie_get trie_create (fname ⟨IN_MODIFY, 2, "a"⟩) = none ∧
    IN_MODIFY &&& IMPORTANT_EVENTS = 0 ∧
    (feed ⟨3, trie_create⟩
      [(⟨true, 0, true⟩, ⟨IN_MODIFY, 2, "a"⟩, 10), (⟨true, 0, true⟩, ⟨IN_MODIFY, 2, "a"⟩, 11),
       (⟨true, 0, true⟩, ⟨IN_MODIFY, 2, "a"⟩, 12), (⟨true, 0, true⟩, ⟨IN_MODIFY, 2, "a"⟩, 13),
       (⟨true, 0, true⟩, ⟨IN_MODIFY, 2, "a"⟩, 14), (⟨true, 0, true⟩, ⟨IN_MODIFY, 2, "a"⟩, 15)]).2
      = [true, true, true, true, true, true] := by
  decide

/-- C1 (amended): from a map in which the name is unseen, with the first
record stored successfully and clock values that are non-negative,
non-decreasing and each within one second of the previous one, a burst of
identical ordinary (not important) events is reported six times: the sixth
event enters the ban and is itself reported, and the seventh event is the
first one that is suppressed. -/
theorem burst_six_reported_seventh_suppressed (w : fswatch_t) (e : inotify_event)
    (h1 h2 h3 h4 h5 h6 h7 : heap_t) (t1 t2 t3 t4 t5 t6 t7 : Int)
    (hnew : trie_get w.stats (fname e) = none)
    (hmask : e.mask &&& IMPORTANT_EVENTS = 0)
    (hm : h1.malloc_ok = true) (hs : h1.trie_set_ok = true)
    (h0 : 0 ≤ t1)
    (h12 : t1 ≤ t2 ∧ t2 ≤ t1 + 1) (h23 : t2 ≤ t3 ∧ t3 ≤ t2 + 1)
    (h34 : t3 ≤ t4 ∧ t4 ≤ t3 + 1) (h45 : t4 ≤ t5 ∧ t5 ≤ t4 + 1)
    (h56 : t5 ≤ t6 ∧ t6 ≤ t5 + 1) (h67 : t6 ≤ t7 ∧ t7 ≤ t6 + 1) :
    (feed w [(h1, e, t1), (h2, e, t2), (h3, e, t3), (h4, e, t4), (h5, e, t5), (h6, e, t6)]).2
      = [true, true, true, true, true, true] ∧
    (feed w [(h1, e, t1), (h2, e, t2), (h3, e, t3), (h4, e, t4), (h5, e, t5), (h6, e, t6),
      (h7, e, t7)]).2 = [true, true, true, true, true, true, false] := by
  have e1 := update_file_stats_unseen h1 w e t1 hnew hm hs
  have k2 : known_step ⟨t1, 0, h1.junk_mask, 1⟩ e.mask t2 = (⟨t2, 0, h1.junk_mask, 2⟩, true) :=
    known_step_counted _ _ _ hmask (by simp; omega) (by simp; omega) (by simp) (by simp)
  have k3 : known_step ⟨t2, 0, h1.junk_mask, 2⟩ e.mask t3 = (⟨t3, 0, h1.junk_mask, 3⟩, true) :=
    known_step_counted _ _ _ hmask (by simp; omega) (by simp; omega) (by simp) (by simp)
  have k4 : known_step ⟨t3, 0, h1.junk_mask, 3⟩ e.mask t4 = (⟨t4, 0, h1.junk_mask, 4⟩, true) :=
    known_step_counted _ _ _ hmask (by simp; omega) (by simp; omega) (by simp) (by simp)
  have k5 : known_step ⟨t4, 0, h1.junk_mask, 4⟩ e.mask t5 = (⟨t5, 0, h1.junk_mask, 5⟩, true) :=
    known_step_counted _ _ _ hmask (by simp; omega) (by simp; omega) (by simp) (by simp)
  have k6 : known_step ⟨t5, 0, h1.junk_mask, 5⟩ e.mask t6 = (⟨t6, t6 + 5, e.mask, 6⟩, true) :=
    known_step_enters_ban _ _ _ hmask (by simp; omega) (by simp; omega) (by simp) (by simp)
  have k7 : known_step ⟨t6, t6 + 5, e.mask, 6⟩ e.mask t7 = (⟨t6, t6 + 5, e.mask, 6⟩, false) :=
    known_step_suppressed _ _ _ hmask (by simp; omega) (and_bnot32_self e.mask)
  constructor <;>
    simp only [feed, e1, update_file_stats_on_set, k2, k3, k4, k5, k6, k7]

/-- Why the amended burst statement asks for a stored first record: when
`malloc` fails during the first event, the name is still unseen at the second
one, and seven events are all reported. -/
theorem burst_with_failed_allocation :
    (feed ⟨3, trie_create⟩
      [(⟨false, 0, true⟩, ⟨IN_MODIFY, 2, "a"⟩, 10), (⟨true, 0, true⟩, ⟨IN_MODIFY, 2, "a"⟩, 11),
       (⟨true, 0, true⟩, ⟨IN_MODIFY, 2, "a"⟩, 12), (⟨true, 0, true⟩, ⟨IN_MODIFY, 2, "a"⟩, 13),
       (⟨true, 0, true⟩, ⟨IN_MODIFY, 2, "a"⟩, 14), (⟨true, 0, true⟩, ⟨IN_MODIFY, 2, "a"⟩, 15),
       (⟨true, 0, true⟩, ⟨IN_MODIFY, 2, "a"⟩, 15)]).2
      = [true, true, true, true, true, true, true] := by
  decide

/-- Why the amended burst statement asks for non-negative clock values: at a
negative clock value (`time` returns `-1` on failure) a fresh record, with
`banned_until = 0`, counts as banned, and the never assigned `ban_mask` of
the block decides: here the second event is suppressed already. -/
theorem burst_at_negative_clock :
    (feed ⟨3, trie_create⟩
      [(⟨true, IN_MODIFY, true⟩, ⟨IN_MODIFY, 2, "a"⟩, -1),
       (⟨true, 0, true⟩, ⟨IN_MODIFY, 2, "a"⟩, -1)]).2 = [true, false] := by
  decide

/-- C1 (amended), on `IN_MODIFY` events for `a` at the clock values 10 to 15
followed by a seventh event at clock value 15. -/
theorem burst_six_reported_seventh_suppressed_witness :
    (feed ⟨3, trie_create⟩
      [(⟨true, 0, true⟩, ⟨IN_MODIFY, 2, "a"⟩, 10), (⟨true, 0, true⟩, ⟨IN_MODIFY, 2, "a"⟩, 11),
       (⟨true, 0, true⟩, ⟨IN_MODIFY, 2, "a"⟩, 12), (⟨true, 0, true⟩, ⟨IN_MODIFY, 2, "a"⟩, 13),
       (⟨true, 0, true⟩, ⟨IN_MODIFY, 2, "a"⟩, 14), (⟨true, 0, true⟩, ⟨IN_MODIFY, 2, "a"⟩, 15)]).2
      = [true, true, true, true, true, true] ∧
    (feed ⟨3, trie_create⟩
      [(⟨true, 0, true⟩, ⟨IN_MODIFY, 2, "a"⟩, 10), (⟨true, 0, true⟩, ⟨IN_MODIFY, 2, "a"⟩, 11),
       (⟨true, 0, true⟩, ⟨IN_MODIFY, 2, "a"⟩, 12), (⟨true, 0, true⟩, ⟨IN_MODIFY, 2, "a"⟩, 13),
       (⟨true, 0, true⟩, ⟨IN_MODIFY, 2, "a"⟩, 14), (⟨true, 0, true⟩, ⟨IN_MODIFY, 2, "a"⟩, 15),
       (⟨true, 0, true⟩, ⟨IN_MODIFY, 2, "a"⟩, 15)]).2
      = [true, true, true, true, true, true, false] :=
  burst_six_reported_seventh_suppressed ⟨3, trie_create⟩ ⟨IN_MODIFY, 2, "a"⟩
    ⟨true, 0, true⟩ ⟨true, 0, true⟩ ⟨true, 0, true⟩ ⟨true, 0, true⟩ ⟨true, 0, true⟩
    ⟨true, 0, true⟩ ⟨true, 0, true⟩ 10 11 12 13 14 15 15
    (by decide) (by decide) rfl rfl (by decide) (by decide) (by decide) (by decide)
    (by decide) (by decide) (by decide)

end inotify

/-! ## Important events and first sightings -/

namespace inotify

/-- An important event at a non-negative clock value: the ban is cleared, the
counter restarts at 1 and then takes part in the ordinary burst counting. -/
theorem known_step_important (s : notif_stat_t) (mask : Nat) (now : Int)
    (himp : mask &&& IMPORTANT_EVENTS ≠ 0) (hnow : 0 ≤ now) :
    known_step s mask now =
      (⟨now, 0, s.ban_mask, if now - s.last_update ≤ 1 then 2 else 1⟩, true) := by
  have hnb : ¬ now < 0 := by omega
  by_cases hnear : now - s.last_update ≤ 1 <;>
    simp [known_step, himp, hnb, hnear, HITS_TO_BAN_AFTER, int_wrap_two]

/-- An event at or after the end of the ban is never suppressed. -/
theorem known_step_after_ban (s : notif_stat_t) (mask : Nat) (now : Int)
    (hnow : 0 ≤ now) (hexp : s.banned_until ≤ now) :
    (known_step s mask now).2 = true := by
  have h1 : ¬ now < s.banned_until := by omega
  have h2 : ¬ now < 0 := by omega
  by_cases himp : mask &&& IMPORTANT_EVENTS = 0 <;> simp [known_step, himp, h1, h2]

end inotify

/-! ## C2, C3: important events on a known name -/

namespace inotify

/-- C2: for a known name with any stored record, a non-negative clock value
and an event whose mask meets `IMPORTANT_EVENTS` (create, delete, move-from,
move-to), `update_file_stats` reports the event and leaves the record of
that name with `banned_until = 0`. -/
theorem important_event_reported_and_unbanned (h : heap_t) (w : fswatch_t)
    (e : inotify_event) (now : Int) (data : notif_stat_t)
    (hget : trie_get w.stats (fname e) = some data) (hnow : 0 ≤ now)
    (himp : e.mask &&& IMPORTANT_EVENTS ≠ 0) :
    (update_file_stats h w e now).2 = true ∧
    ∃ s, trie_get (update_file_stats h w e now).1.stats (fname e) = some s ∧
      s.banned_until = 0 := by
  rw [update_file_stats_known h w e now data hget, known_step_important data e.mask now himp hnow]
  exact ⟨rfl, _, trie_get_set_same _ _ _, rfl⟩

/-- C2 on a banned record: `IN_DELETE` for `a` at clock value 12 while the
record is banned until 17. -/
theorem important_event_reported_and_unbanned_witness :
    (update_file_stats ⟨true, 0, true⟩ ⟨3, trie_set trie_create "a" ⟨12, 17, IN_MODIFY, 6⟩⟩
      ⟨IN_DELETE, 2, "a"⟩ 12).2 = true ∧
    ∃ s, trie_get (update_file_stats ⟨true, 0, true⟩
        ⟨3, trie_set trie_create "a" ⟨12, 17, IN_MODIFY, 6⟩⟩ ⟨IN_DELETE, 2, "a"⟩ 12).1.stats
        (fname ⟨IN_DELETE, 2, "a"⟩) = some s ∧ s.banned_until = 0 :=
  important_event_reported_and_unbanned ⟨true, 0, true⟩
    ⟨3, trie_set trie_create "a" ⟨12, 17, IN_MODIFY, 6⟩⟩ ⟨IN_DELETE, 2, "a"⟩ 12
    ⟨12, 17, IN_MODIFY, 6⟩ (by decide) (by decide) (by decide)

/-- C3 (as stated, refuted): `IN_CREATE` for the known name `a` at clock
value 10, one event after the record was created at clock value 10, leaves
the counter at 2, not at 1. -/
theorem important_event_count_two :
    IN_CREATE &&& IMPORTANT_EVENTS ≠ 0 ∧
    trie_get (update_file_stats ⟨true, 0, true⟩ ⟨3, trie_set trie_create "a" ⟨10, 0, 0, 1⟩⟩
      ⟨IN_CREATE, 2, "a"⟩ 10).1.stats "a" = some ⟨10, 0, 0, 2⟩ := by
  decide

/-- C3 (amended): after an important event on a known name the counter is 1
or 2, whatever the record held before: it is 1 when the event comes more than
one second after `last_update`, and 2 when it comes, at a non-negative clock
value, within one second of `last_update` (the reset to 1 is followed by the
ordinary increment for events of one burst). -/
theorem important_event_count (h : heap_t) (w : fswatch_t) (e : inotify_event) (now : Int)
    (data : notif_stat_t) (hget : trie_get w.stats (fname e) = some data)
    (himp : e.mask &&& IMPORTANT_EVENTS ≠ 0) :
    ∃ s, trie_get (update_file_stats h w e now).1.stats (fname e) = some s ∧
      (s.count = 1 ∨ s.count = 2) ∧
      (1 < now - data.last_update → s.count = 1) ∧
      (0 ≤ now → now - data.last_update ≤ 1 → s.count = 2) := by
  rw [update_file_stats_known h w e now data hget]
  refine ⟨_, trie_get_set_same _ _ _, ?_, ?_, ?_⟩
  · by_cases hnear : now - data.last_update ≤ 1 <;>
      by_cases hb : now < 0 ∧ e.mask &&& bnot32 data.ban_mask = 0 <;>
      simp [known_step, himp, hnear, hb, HITS_TO_BAN_AFTER, int_wrap_two]
  · intro hfar
    have hnear : ¬ now - data.last_update ≤ 1 := by omega
    by_cases hb : now < 0 ∧ e.mask &&& bnot32 data.ban_mask = 0 <;>
      simp [known_step, himp, hnear, hb, HITS_TO_BAN_AFTER]
  · intro hnow hnear
    rw [known_step_important data e.mask now himp hnow]
    simp [hnear]

/-- C3 (amended) on `IN_CREATE` for `a` at clock value 10, the record having
been created at clock value 10. -/
theorem important_event_count_witness :
    ∃ s, trie_get (update_file_stats ⟨true, 0, true⟩
        ⟨3, trie_set trie_create "a" ⟨10, 0, 0, 1⟩⟩ ⟨IN_CREATE, 2, "a"⟩ 10).1.stats
        (fname ⟨IN_CREATE, 2, "a"⟩) = some s ∧
      (s.count = 1 ∨ s.count = 2) ∧
      (1 < (10 : Int) - (⟨10, 0, 0, 1⟩ : notif_stat_t).last_update → s.count = 1) ∧
      (0 ≤ (10 : Int) → (10 : Int) - (⟨10, 0, 0, 1⟩ : notif_stat_t).last_update ≤ 1 →
        s.count = 2) :=
  important_event_count ⟨true, 0, true⟩ ⟨3, trie_set trie_create "a" ⟨10, 0, 0, 1⟩⟩
    ⟨IN_CREATE, 2, "a"⟩ 10 ⟨10, 0, 0, 1⟩ (by decide) (by decide)

/-! ## C5: the ban expires -/

/-- C5: for a known name whose record is in a ban (`banned_until > 0`), an
event with the same mask as `ban_mask` processed at a clock value
`now >= banned_until` is reported by `update_file_stats`. -/
theorem same_kind_event_after_ban_reported (h : heap_t) (w : fswatch_t) (e : inotify_event)
    (now : Int) (data : notif_stat_t) (hget : trie_get w.stats (fname e) = some data)
    (hban : 0 < data.banned_until) (_hsame : e.mask = data.ban_mask)
    (hexp : data.banned_until ≤ now) :
    (update_file_stats h w e now).2 = true := by
  rw [update_file_stats_known h w e now data hget]
  exact known_step_after_ban data e.mask now (by omega) hexp

/-- C5 six seconds after a ban was entered at clock value 15 (so that
`banned_until = 20` and `now = 21`). -/
theorem same_kind_event_after_ban_reported_witness :
    (update_file_stats ⟨true, 0, true⟩ ⟨3, trie_set trie_create "a" ⟨15, 20, IN_MODIFY, 6⟩⟩
      ⟨IN_MODIFY, 2, "a"⟩ 21).2 = true :=
  same_kind_event_after_ban_reported ⟨true, 0, true⟩
    ⟨3, trie_set trie_create "a" ⟨15, 20, IN_MODIFY, 6⟩⟩ ⟨IN_MODIFY, 2, "a"⟩ 21
    ⟨15, 20, IN_MODIFY, 6⟩ (by decide) (by decide) rfl (by decide)

end inotify

/-! ## The drain loop of `fswatch_changed` -/

namespace inotify

theorem verdicts_append (now : Int) (w : fswatch_t) (xs ys : List record_t) :
    verdicts now w (xs ++ ys) = verdicts now w xs ++ verdicts now (after_events now w xs) ys := by
  induction xs generalizing w with
  | nil => rfl
  | cons r rest ih => simp [verdicts, after_events, ih]

theorem after_events_append (now : Int) (w : fswatch_t) (xs ys : List record_t) :
    after_events now w (xs ++ ys) = after_events now (after_events now w xs) ys := by
  induction xs generalizing w with
  | nil => rfl
  | cons r rest ih => simp [after_events, ih]

/-- The `for` loop leaves the map of `after_events` and ORs the return values
into `changed`. -/
theorem process_events_eq (now : Int) (rs : List record_t) (w : fswatch_t) (changed : Bool) :
    process_events now rs w changed =
      (after_events now w rs, changed || (verdicts now w rs).any id) := by
  induction rs generalizing w changed with
  | nil => simp [process_events, after_events, verdicts]
  | cons r rest ih =>
    simp only [process_events, after_events, verdicts, ih, List.any_cons, id]
    cases (update_file_stats r.heap w r.event now).2 <;> cases changed <;> simp

/-- A read outcome that does not end the loop is a package with a record. -/
theorem data_of_not_ends_drain (r : read_result) (hr : ends_drain r = false) :
    ∃ rs, r = read_result.data rs ∧ rs.isEmpty = false := by
  cases r with
  | data rs => exact ⟨rs, rfl, by simpa [ends_drain] using hr⟩
  | eagain => simp [ends_drain] at hr
  | failure => simp [ends_drain] at hr

/-- An outcome that ends the loop carries no record. -/
theorem records_of_ends_drain (r : read_result) (hr : ends_drain r = true) :
    records_of r = [] := by
  cases r with
  | data rs => simpa [ends_drain, records_of] using hr
  | eagain => rfl
  | failure => rfl

/-- The loop, started at read number `i`, when the first outcome that ends it
is `n` reads later: with more than `n` iterations allowed it returns after
processing exactly the records of the `n` packages before that outcome. -/
theorem fswatch_changed_loop_returns (reads : Nat → read_result) (now : Int) (n : Nat) :
    ∀ (fuel i : Nat) (w : fswatch_t) (changed error : Bool),
      (∀ j, j < n → ends_drain (reads (i + j)) = false) →
      ends_drain (reads (i + n)) = true → n < fuel →
      fswatch_changed_loop reads now fuel i w changed error =
        some ⟨after_events now w (drained reads i n),
          changed || (verdicts now w (drained reads i n)).any id,
          error || read_failed (reads (i + n)), i + n⟩ := by
  induction n with
  | zero =>
    intro fuel i w changed error _ hend hfuel
    obtain ⟨f, rfl⟩ : ∃ f, fuel = f + 1 := ⟨fuel - 1, by omega⟩
    simp only [Nat.add_zero] at hend ⊢
    unfold fswatch_changed_loop
    cases hr : reads i with
    | data rs =>
      have hrs : rs = [] := by simpa [hr, ends_drain] using hend
      subst hrs
      simp [process_events, drained, after_events, verdicts, read_failed]
    | eagain => simp [drained, after_events, verdicts, read_failed]
    | failure => simp [drained, after_events, verdicts, read_failed]
  | succ n ih =>
    intro fuel i w changed error hpre hend hfuel
    obtain ⟨f, rfl⟩ : ∃ f, fuel = f + 1 := ⟨fuel - 1, by omega⟩
    obtain ⟨rs, hrs, hne⟩ := data_of_not_ends_drain (reads i) (by simpa using hpre 0 (by omega))
    have hpre2 : ∀ j, j < n → ends_drain (reads (i + 1 + j)) = false := by
      intro j hj
      have := hpre (j + 1) (by omega)
      rwa [show i + (j + 1) = i + 1 + j by omega] at this
    have hend2 : ends_drain (reads (i + 1 + n)) = true := by
      rwa [show i + (n + 1) = i + 1 + n by omega] at hend
    unfold fswatch_changed_loop
    simp only [hrs, hne, Bool.false_eq_true, if_false]
    rw [process_events_eq, ih f (i + 1) _ _ error hpre2 hend2 (by omega)]
    simp only [drained, hrs, records_of, verdicts_append, after_events_append, List.any_append,
      Bool.or_assoc, show i + 1 + n = i + (n + 1) by omega]

/-- The loop never returns while every read delivers a package with a
record, however many iterations are allowed. -/
theorem fswatch_changed_loop_starves (reads : Nat → read_result) (now : Int)
    (hall : ∀ j, ends_drain (reads j) = false) :
    ∀ (fuel i : Nat) (w : fswatch_t) (changed error : Bool),
      fswatch_changed_loop reads now fuel i w changed error = none := by
  intro fuel
  induction fuel with
  | zero => intro i w changed error; rfl
  | succ f ih =>
    intro i w changed error
    obtain ⟨rs, hrs, hne⟩ := data_of_not_ends_drain (reads i) (hall i)
    unfold fswatch_changed_loop
    simp only [hrs, hne, Bool.false_eq_true, if_false]
    exact ih _ _ _ _

/-- The loop does not return within `fuel` iterations when the first `fuel`
reads all deliver a package with a record. -/
theorem fswatch_changed_loop_needs (reads : Nat → read_result) (now : Int) :
    ∀ (fuel i : Nat) (w : fswatch_t) (changed error : Bool),
      (∀ j, j < fuel → ends_drain (reads (i + j)) = false) →
      fswatch_changed_loop reads now fuel i w changed error = none := by
  intro fuel
  induction fuel with
  | zero => intro i w changed error _; rfl
  | succ f ih =>
    intro i w changed error hpre
    obtain ⟨rs, hrs, hne⟩ := data_of_not_ends_drain (reads i) (by simpa using hpre 0 (by omega))
    unfold fswatch_changed_loop
    simp only [hrs, hne, Bool.false_eq_true, if_false]
    apply ih
    intro j hj
    have := hpre (j + 1) (by omega)
    rwa [show i + (j + 1) = i + 1 + j by omega] at this

end inotify

namespace inotify

/-- A call of `fswatch_changed` whose first loop-ending read outcome is read
number `n`: the call returns once more than `n` iterations are allowed. -/
theorem fswatch_changed_returns (reads : Nat → read_result) (now : Int) (w : fswatch_t)
    (n fuel : Nat) (hpre : ∀ j, j < n → ends_drain (reads j) = false)
    (hend : ends_drain (reads n) = true) (hfuel : n < fuel) :
    fswatch_changed fuel reads now w =
      some ⟨after_events now w (drained reads 0 n),
        (verdicts now w (drained reads 0 n)).any id, read_failed (reads n), n⟩ := by
  unfold fswatch_changed
  rw [fswatch_changed_loop_returns reads now n fuel 0 w false false
    (by intro j hj; simpa using hpre j hj) (by simpa using hend) hfuel]
  simp

/-- A reported record makes the OR over the whole delivery true. -/
theorem any_verdicts_of_reported (now : Int) (w : fswatch_t) (pre post : List record_t)
    (r : record_t)
    (hr : (update_file_stats r.heap (after_events now w pre) r.event now).2 = true) :
    (verdicts now w (pre ++ r :: post)).any id = true := by
  rw [verdicts_append]
  simp [verdicts, hr]

end inotify

/-! ## C4: first sighting of a name -/

namespace inotify

/-- C4 (as stated, refuted): when `malloc` returns `NULL`, or `trie_set`
fails, during the first event for the unseen name `a`, the event is reported
but the map afterwards still has no record for `a`. -/
theorem first_sighting_not_stored :
    trie_get trie_create (fname ⟨IN_MODIFY, 2, "a"⟩) = none ∧
    (update_file_stats ⟨false, 0, true⟩ ⟨3, trie_create⟩ ⟨IN_MODIFY, 2, "a"⟩ 10).2 = true ∧
    trie_get (update_file_stats ⟨false, 0, true⟩ ⟨3, trie_create⟩
      ⟨IN_MODIFY, 2, "a"⟩ 10).1.stats "a" = none ∧
    trie_get (update_file_stats ⟨true, 0, false⟩ ⟨3, trie_create⟩
      ⟨IN_MODIFY, 2, "a"⟩ 10).1.stats "a" = none := by
  decide

/-- C4 (amended): for a name that is not in the map, whatever the mask and
the clock value, `update_file_stats` reports the event; when the new record
can be allocated and inserted, the resulting map holds for that name
`count = 1`, `banned_until = 0`, `last_update = now` and every other name
keeps its entry; when `malloc` or `trie_set` fails the watcher is left as it
was.  In every case a call of `fswatch_changed` that returns after draining
such an event (the name being absent when the event's turn comes) returns
`changed = true`. -/
theorem first_sighting (h : heap_t) (w : fswatch_t) (e : inotify_event) (now : Int)
    (hnew : trie_get w.stats (fname e) = none) :
    (update_file_stats h w e now).2 = true ∧
    (h.malloc_ok = true → h.trie_set_ok = true →
      (∃ s, trie_get (update_file_stats h w e now).1.stats (fname e) = some s ∧
        s.count = 1 ∧ s.banned_until = 0 ∧ s.last_update = now) ∧
      ∀ k, k ≠ fname e →
        trie_get (update_file_stats h w e now).1.stats k = trie_get w.stats k) ∧
    ((h.malloc_ok = false ∨ h.trie_set_ok = false) → (update_file_stats h w e now).1 = w) ∧
    (∀ (w0 : fswatch_t) (reads : Nat → read_result) (n fuel : Nat) (pre post : List record_t),
      (∀ j, j < n → ends_drain (reads j) = false) → ends_drain (reads n) = true → n < fuel →
      drained reads 0 n = pre ++ ⟨h, e⟩ :: post → after_events now w0 pre = w →
      ∃ res, fswatch_changed fuel reads now w0 = some res ∧ res.changed = true) := by
  have hv : (update_file_stats h w e now).2 = true := by
    unfold update_file_stats
    rw [hnew]
    split_ifs <;> rfl
  refine ⟨hv, ?_, ?_, ?_⟩
  · intro hm hs
    rw [update_file_stats_unseen h w e now hnew hm hs]
    exact ⟨⟨_, trie_get_set_same _ _ _, rfl, rfl, rfl⟩,
      fun k hk => trie_get_set_other _ _ _ _ hk⟩
  · intro hfail
    unfold update_file_stats
    rw [hnew]
    rcases hfail with hm | hs
    · simp [hm]
    · simp [hs]
  · intro w0 reads n fuel pre post hpre hend hfuel hdr hw
    refine ⟨_, fswatch_changed_returns reads now w0 n fuel hpre hend hfuel, ?_⟩
    show (verdicts now w0 (drained reads 0 n)).any id = true
    rw [hdr]
    apply any_verdicts_of_reported
    rw [hw]
    exact hv

/-- C4 (amended) on the first `IN_MODIFY` event for `a` in an empty map. -/
theorem first_sighting_witness :
    (update_file_stats ⟨true, 0, true⟩ ⟨3, trie_create⟩ ⟨IN_MODIFY, 2, "a"⟩ 10).2 = true ∧
    trie_get (update_file_stats ⟨true, 0, true⟩ ⟨3, trie_create⟩
      ⟨IN_MODIFY, 2, "a"⟩ 10).1.stats "a" = some ⟨10, 0, 0, 1⟩ ∧
    (∃ res, fswatch_changed 2 (stream_of [read_result.data [⟨⟨true, 0, true⟩,
        ⟨IN_MODIFY, 2, "a"⟩⟩]]) 10 ⟨3, trie_create⟩ = some res ∧ res.changed = true) :=
  ⟨(first_sighting ⟨true, 0, true⟩ ⟨3, trie_create⟩ ⟨IN_MODIFY, 2, "a"⟩ 10 (by decide)).1,
    by decide,
    (first_sighting ⟨true, 0, true⟩ ⟨3, trie_create⟩ ⟨IN_MODIFY, 2, "a"⟩ 10
      (by decide)).2.2.2 ⟨3, trie_create⟩
      (stream_of [read_result.data [⟨⟨true, 0, true⟩, ⟨IN_MODIFY, 2, "a"⟩⟩]]) 1 2 [] []
      (by decide) (by decide) (by decide) (by decide) rfl⟩

end inotify

/-! ## C6, C7, C8: one call of the notification-based `fswatch_changed` -/

namespace inotify

/-- C6 (as stated, refuted): on the stream that delivers two packages of one
record each and then `EAGAIN`, one call processes both packages; and on the
source that has a package with one record ready at every read, the call does
not return, however many loop iterations are allowed. -/
theorem drain_reads_more_than_one_batch :
    Option.map changed_result.batches
      (fswatch_changed 3
        (stream_of [read_result.data [⟨⟨true, 0, true⟩, ⟨IN_MODIFY, 2, "a"⟩⟩],
          read_result.data [⟨⟨true, 0, true⟩, ⟨IN_MODIFY, 2, "a"⟩⟩], read_result.eagain])
        10 ⟨3, trie_create⟩) = some 2 ∧
    ∀ fuel : Nat,
      Option.map changed_result.batches
        (fswatch_changed fuel
          (fun _ => read_result.data [⟨⟨true, 0, true⟩, ⟨IN_MODIFY, 2, "a"⟩⟩])
          10 ⟨3, trie_create⟩) = none := by
  constructor
  · decide
  · intro fuel
    have hall : ∀ j : Nat, ends_drain ((fun _ : Nat =>
        read_result.data [⟨⟨true, 0, true⟩, ⟨IN_MODIFY, 2, "a"⟩⟩]) j) = false :=
      fun _ => rfl
    unfold fswatch_changed
    rw [fswatch_changed_loop_starves _ 10 hall]
    rfl

/-- C6 (amended): a call of `fswatch_changed` keeps reading until a read
yields `EAGAIN`, another failure or no data.  When the first such outcome is
read number `n`, the call returns after processing exactly the `n` packages
before it (given more than `n` loop iterations, and not with fewer); on a
source that has a non-empty package ready at every read the call never
returns. -/
theorem drain_runs_to_first_ending_read (reads : Nat → read_result) (now : Int)
    (w : fswatch_t) :
    (∀ n fuel : Nat, (∀ j, j < n → ends_drain (reads j) = false) →
      ends_drain (reads n) = true →
      (n < fuel → ∃ res, fswatch_changed fuel reads now w = some res ∧ res.batches = n) ∧
      (fuel ≤ n → fswatch_changed fuel reads now w = none)) ∧
    ((∀ j, ends_drain (reads j) = false) →
      ∀ fuel : Nat, fswatch_changed fuel reads now w = none) := by
  refine ⟨fun n fuel hpre hend => ⟨fun hfuel => ?_, fun hfuel => ?_⟩, fun hall fuel => ?_⟩
  · exact ⟨_, fswatch_changed_returns reads now w n fuel hpre hend hfuel, rfl⟩
  · unfold fswatch_changed
    apply fswatch_changed_loop_needs
    intro j hj
    simpa using hpre j (by omega)
  · exact fswatch_changed_loop_starves reads now hall fuel 0 w false false

/-- C6 (amended) on the stream of two packages followed by `EAGAIN`: three
loop iterations return after two packages, two iterations do not suffice. -/
theorem drain_runs_to_first_ending_read_witness :
    (∃ res, fswatch_changed 3
        (stream_of [read_result.data [⟨⟨true, 0, true⟩, ⟨IN_MODIFY, 2, "a"⟩⟩],
          read_result.data [⟨⟨true, 0, true⟩, ⟨IN_MODIFY, 2, "a"⟩⟩], read_result.eagain])
        10 ⟨3, trie_create⟩ = some res ∧ res.batches = 2) ∧
    fswatch_changed 2
        (stream_of [read_result.data [⟨⟨true, 0, true⟩, ⟨IN_MODIFY, 2, "a"⟩⟩],
          read_result.data [⟨⟨true, 0, true⟩, ⟨IN_MODIFY, 2, "a"⟩⟩], read_result.eagain])
        10 ⟨3, trie_create⟩ = none :=
  ⟨((drain_runs_to_first_ending_read _ 10 ⟨3, trie_create⟩).1 2 3 (by decide) (by decide)).1
      (by decide),
    ((drain_runs_to_first_ending_read _ 10 ⟨3, trie_create⟩).1 2 2 (by decide) (by decide)).2
      (by decide)⟩

/-- C7: for every watcher, clock value and stream of read outcomes whose
first loop-ending outcome is read number `n`, a call of `fswatch_changed`
returns, and the returned `changed` is the OR of the return values of
`update_file_stats` over the drained records in delivery order, all with the
one clock value and with the map threaded through; when nothing was drained
`changed` is false. -/
theorem changed_is_or_of_verdicts (reads : Nat → read_result) (now : Int) (w : fswatch_t)
    (n fuel : Nat) (hpre : ∀ j, j < n → ends_drain (reads j) = false)
    (hend : ends_drain (reads n) = true) (hfuel : n < fuel) :
    ∃ res, fswatch_changed fuel reads now w = some res ∧
      res.changed = (verdicts now w (drained reads 0 n)).any id ∧
      (drained reads 0 n = [] → res.changed = false) := by
  refine ⟨_, fswatch_changed_returns reads now w n fuel hpre hend hfuel, rfl, ?_⟩
  intro hnil
  simp [hnil, verdicts]

/-- C7 on a call that drains two packages, the second with a suppressed
record only. -/
theorem changed_is_or_of_verdicts_witness :
    ∃ res, fswatch_changed 3
        (stream_of [read_result.data [⟨⟨true, 0, true⟩, ⟨IN_MODIFY, 2, "b"⟩⟩],
          read_result.data [⟨⟨true, 0, true⟩, ⟨IN_MODIFY, 2, "a"⟩⟩], read_result.eagain])
        10 ⟨3, trie_set trie_create "a" ⟨10, 15, IN_MODIFY, 6⟩⟩ = some res ∧
      res.changed = (verdicts 10 ⟨3, trie_set trie_create "a" ⟨10, 15, IN_MODIFY, 6⟩⟩
        (drained (stream_of [read_result.data [⟨⟨true, 0, true⟩, ⟨IN_MODIFY, 2, "b"⟩⟩],
          read_result.data [⟨⟨true, 0, true⟩, ⟨IN_MODIFY, 2, "a"⟩⟩], read_result.eagain])
          0 2)).any id ∧
      (drained (stream_of [read_result.data [⟨⟨true, 0, true⟩, ⟨IN_MODIFY, 2, "b"⟩⟩],
          read_result.data [⟨⟨true, 0, true⟩, ⟨IN_MODIFY, 2, "a"⟩⟩], read_result.eagain])
          0 2 = [] → res.changed = false) :=
  changed_is_or_of_verdicts _ 10 ⟨3, trie_set trie_create "a" ⟨10, 15, IN_MODIFY, 6⟩⟩ 2 3
    (by decide) (by decide) (by decide)

/-- C8: for a call of `fswatch_changed` whose first loop-ending read outcome
is read number `n`: `error` is true exactly when that outcome is a failure
other than `EAGAIN` (so `EAGAIN` and an empty read give `error = false`); the
watcher keeps the statistics updates of all records read before it, and
`changed` is the OR of their return values.  There is a call that returns
`changed = true` together with `error = true`. -/
theorem error_only_on_read_failure (reads : Nat → read_result) (now : Int) (w : fswatch_t)
    (n fuel : Nat) (hpre : ∀ j, j < n → ends_drain (reads j) = false)
    (hend : ends_drain (reads n) = true) (hfuel : n < fuel) :
    (∃ res, fswatch_changed fuel reads now w = some res ∧
      (res.error = true ↔ reads n = read_result.failure) ∧
      (reads n = read_result.eagain ∨ reads n = read_result.data [] → res.error = false) ∧
      res.w = after_events now w (drained reads 0 n) ∧
      res.changed = (verdicts now w (drained reads 0 n)).any id) ∧
    (∃ res, fswatch_changed 2
        (stream_of [read_result.data [⟨⟨true, 0, true⟩, ⟨IN_MODIFY, 2, "a"⟩⟩],
          read_result.failure]) 10 ⟨3, trie_create⟩ = some res ∧
      res.changed = true ∧ res.error = true) := by
  refine ⟨⟨_, fswatch_changed_returns reads now w n fuel hpre hend hfuel, ?_, ?_, rfl, rfl⟩,
    ⟨_, fswatch_changed_returns _ 10 ⟨3, trie_create⟩ 1 2 (by decide) (by decide) (by decide),
      by decide, by decide⟩⟩
  · show read_failed (reads n) = true ↔ _
    cases reads n <;> simp [read_failed]
  · intro hr
    show read_failed (reads n) = false
    rcases hr with hr | hr <;> simp [hr, read_failed]

/-- C8 on a call that reads one package and then fails: the record of the
package is stored, `changed` and `error` are both true. -/
theorem error_only_on_read_failure_witness :
    ∃ res, fswatch_changed 2
        (stream_of [read_result.data [⟨⟨true, 0, true⟩, ⟨IN_MODIFY, 2, "a"⟩⟩],
          read_result.failure]) 10 ⟨3, trie_create⟩ = some res ∧
      res.error = true ∧ res.changed = true ∧
      trie_get res.w.stats "a" = some ⟨10, 0, 0, 1⟩ := by
  obtain ⟨res, hres, herr, _, hw, hch⟩ :=
    (error_only_on_read_failure
      (stream_of [read_result.data [⟨⟨true, 0, true⟩, ⟨IN_MODIFY, 2, "a"⟩⟩],
        read_result.failure]) 10 ⟨3, trie_create⟩ 1 2 (by decide) (by decide) (by decide)).1
  refine ⟨res, hres, herr.mpr (by decide), ?_, ?_⟩
  · rw [hch]; decide
  · rw [hw]; decide

end inotify

/-! ## C9, C10: the polling variant -/

namespace poll

/-- A handle that `fswatch_create` returns holds the stamp the path had at
that time and the path itself. -/
theorem fswatch_create_some {filemon_t : Type} (malloc_ok strdup_ok : Bool)
    (filemon_from_file : String → Option filemon_t) (path : String) (f0 : filemon_t)
    (w : fswatch_t filemon_t) (hstamp : filemon_from_file path = some f0)
    (hcreate : (fswatch_create malloc_ok filemon_from_file strdup_ok path).1 = some w) :
    w = ⟨f0, path⟩ := by
  unfold fswatch_create at hcreate
  rw [hstamp] at hcreate
  cases malloc_ok <;> cases strdup_ok <;> simp at hcreate
  exact hcreate.symm

/-- Consecutive calls on file systems where the stamp of the watched path
can be computed: every call compares with the stamp of the call before and
stores its own. -/
theorem calls_on_stamps {filemon_t : Type} (filemon_equal : filemon_t → filemon_t → Bool)
    (path : String) :
    ∀ (fss : List (String → Option filemon_t)) (fs : List filemon_t) (f : filemon_t),
      fss.map (fun world => world path) = fs.map some →
      calls filemon_equal ⟨f, path⟩ fss =
        (⟨fs.getLastD f, path⟩,
          List.zipWith (fun prev cur => (!filemon_equal prev cur, false)) (f :: fs) fs) := by
  intro fss
  induction fss with
  | nil =>
    intro fs f h
    cases fs with
    | nil => rfl
    | cons a l => simp at h
  | cons world rest ih =>
    intro fs f h
    cases fs with
    | nil => simp at h
    | cons a l =>
      simp only [List.map_cons, List.cons.injEq] at h
      obtain ⟨ha, hl⟩ := h
      have hstep : fswatch_changed world filemon_equal ⟨f, path⟩ =
          ⟨⟨a, path⟩, !filemon_equal f a, false⟩ := by
        simp [fswatch_changed, ha, filemon_assign]
      simp only [calls, hstep, ih l a hl, List.zipWith_cons_cons, List.getLastD_cons]

/-- C9: for a handle created while the path had the stamp `f0`, and `n`
consecutive calls of `fswatch_changed` that compute the stamps `f1 .. fn`:
call `k` returns `error = false` and `changed = true` exactly when
`filemon_equal f(k-1) fk` is false, and the handle ends up holding `fn`.
Hence, for a reflexive `filemon_equal`, two calls without modification both
return `changed = false`, and one modification before two calls gives
`changed = true` once and then `changed = false`. -/
theorem polling_reports_each_modification_once {filemon_t : Type}
    (filemon_equal : filemon_t → filemon_t → Bool) (malloc_ok strdup_ok : Bool)
    (world0 : String → Option filemon_t) (path : String) (f0 : filemon_t)
    (w : fswatch_t filemon_t) (fss : List (String → Option filemon_t)) (fs : List filemon_t)
    (hstamp : world0 path = some f0)
    (hcreate : (fswatch_create malloc_ok world0 strdup_ok path).1 = some w)
    (hobs : fss.map (fun world => world path) = fs.map some) :
    (calls filemon_equal w fss).2 =
      List.zipWith (fun prev cur => (!filemon_equal prev cur, false)) (f0 :: fs) fs ∧
    (calls filemon_equal w fss).1 = ⟨fs.getLastD f0, path⟩ ∧
    ((∀ f, filemon_equal f f = true) →
      (fs = [f0, f0] → (calls filemon_equal w fss).2 = [(false, false), (false, false)]) ∧
      (∀ f1, filemon_equal f0 f1 = false → fs = [f1, f1] →
        (calls filemon_equal w fss).2 = [(true, false), (false, false)])) := by
  have hw := fswatch_create_some malloc_ok strdup_ok world0 path f0 w hstamp hcreate
  subst hw
  have hrun := calls_on_stamps filemon_equal path fss fs f0 hobs
  refine ⟨by rw [hrun], by rw [hrun], fun hrefl => ⟨fun hfs => ?_, fun f1 hne hfs => ?_⟩⟩
  · rw [hrun, hfs]
    simp [hrefl]
  · rw [hrun, hfs]
    simp [hrefl, hne]

/-- C9 with natural numbers as stamps: created at stamp 1, then calls that
see the stamps 1, 2, 2. -/
theorem polling_reports_each_modification_once_witness :
    (calls (fun a b : Nat => a == b) ⟨1, "/tmp"⟩ [stamped 1, stamped 2, stamped 2]).2 =
      [(false, false), (true, false), (false, false)] ∧
    (calls (fun a b : Nat => a == b) ⟨1, "/tmp"⟩ [stamped 1, stamped 2, stamped 2]).1 =
      ⟨2, "/tmp"⟩ := by
  have h := polling_reports_each_modification_once (fun a b : Nat => a == b) true true
    (stamped 1) "/tmp" 1 ⟨1, "/tmp"⟩ [stamped 1, stamped 2, stamped 2] [1, 2, 2] rfl rfl rfl
  exact ⟨h.1.trans (by decide), h.2.1⟩

/-- C10: whenever the stamp of the watched path cannot be computed,
`fswatch_changed` returns `changed = true` and `error = true` and leaves the
handle (stored stamp and path) as it was. -/
theorem polling_failure_reported {filemon_t : Type}
    (filemon_from_file : String → Option filemon_t)
    (filemon_equal : filemon_t → filemon_t → Bool) (w : fswatch_t filemon_t)
    (hfail : filemon_from_file w.path = none) :
    (fswatch_changed filemon_from_file filemon_equal w).changed = true ∧
    (fswatch_changed filemon_from_file filemon_equal w).error = true ∧
    (fswatch_changed filemon_from_file filemon_equal w).w = w := by
  simp [fswatch_changed, hfail]

/-- C10 on a file system without any path. -/
theorem polling_failure_reported_witness :
    (fswatch_changed (fun _ => none) (fun a b : Nat => a == b) ⟨1, "/tmp"⟩).changed = true ∧
    (fswatch_changed (fun _ => none) (fun a b : Nat => a == b) ⟨1, "/tmp"⟩).error = true ∧
    (fswatch_changed (fun _ => none) (fun a b : Nat => a == b) ⟨1, "/tmp"⟩).w = ⟨1, "/tmp"⟩ :=
  polling_failure_reported (fun _ => none) (fun a b : Nat => a == b) ⟨1, "/tmp"⟩ rfl

end poll

/-! ## The effect of `update_file_stats`, entry by entry -/

namespace inotify

/-- The function `update_file_stats` rewrites the entry of the event's name
by `entry_step` and leaves the descriptor and all other entries alone. -/
theorem update_file_stats_entrywise (h : heap_t) (w : fswatch_t) (e : inotify_event)
    (now : Int) :
    update_file_stats h w e now =
      (⟨w.fd, fun k => if k = fname e then
          (entry_step h (trie_get w.stats (fname e)) e.mask now).1 else w.stats k⟩,
        (entry_step h (trie_get w.stats (fname e)) e.mask now).2) := by
  cases hget : trie_get w.stats (fname e) with
  | none =>
    have hsame : w = ⟨w.fd, fun k => if k = fname e then none else w.stats k⟩ := by
      cases w with
      | mk fd stats =>
        congr 1
        funext k
        by_cases hk : k = fname e
        · simp only [hk, if_true]; exact hget
        · simp [hk]
    unfold update_file_stats entry_step
    rw [hget]
    cases h.malloc_ok <;> cases h.trie_set_ok <;> simp <;> first | exact hsame | rfl
  | some data =>
    rw [update_file_stats_known h w e now data hget]
    rfl

/-- The verdict is that of `entry_step` on the entry of the event's name. -/
theorem update_file_stats_verdict (h : heap_t) (w : fswatch_t) (e : inotify_event)
    (now : Int) :
    (update_file_stats h w e now).2 =
      (entry_step h (trie_get w.stats (fname e)) e.mask now).2 := by
  rw [update_file_stats_entrywise]

/-- The entry of the event's name afterwards is that of `entry_step`. -/
theorem update_file_stats_get_same (h : heap_t) (w : fswatch_t) (e : inotify_event)
    (now : Int) :
    trie_get (update_file_stats h w e now).1.stats (fname e) =
      (entry_step h (trie_get w.stats (fname e)) e.mask now).1 := by
  rw [update_file_stats_entrywise]
  simp [trie_get]

/-- Entries of other names are not touched. -/
theorem update_file_stats_get_other (h : heap_t) (w : fswatch_t) (e : inotify_event)
    (now : Int) (k : String) (hk : k ≠ fname e) :
    trie_get (update_file_stats h w e now).1.stats k = trie_get w.stats k := by
  rw [update_file_stats_entrywise]
  simp [trie_get, hk]

end inotify

/-! ## C12: events for distinct names commute -/

namespace inotify

end inotify

/-! ## Records reachable from the empty map -/

namespace inotify

theorem stat_ok_mono (s : notif_stat_t) (c1 c2 : Int) (hs : stat_ok c1 s) (hc : c1 ≤ c2) :
    stat_ok c2 s := by
  obtain ⟨h1, h2, h3, h4, h5⟩ := hs
  exact ⟨h1, by omega, h3, h4, h5⟩

/-- The statements after the lookup keep the invariant when the clock does
not run backwards. -/
theorem known_step_keeps_stat_ok (s : notif_stat_t) (mask : Nat) (clock now : Int)
    (hs : stat_ok clock s) (hc : clock ≤ now) (h0 : 0 ≤ now) :
    stat_ok now (known_step s mask now).1 := by
  obtain ⟨h1, h2, h3, h4, h5⟩ := hs
  have hr1 := int_wrap_range (s.count + 1)
  have hr2 := int_wrap_range (1 + 1)
  unfold known_step stat_ok
  simp only [HITS_TO_BAN_AFTER, BAN_SECS, INT_MIN, INT_MAX] at *
  split_ifs <;> (try dsimp only at *) <;> omega

/-- The same for the entry of the event's name, present or not. -/
theorem entry_step_keeps_stat_ok (h : heap_t) (entry : Option notif_stat_t) (mask : Nat)
    (clock now : Int) (hentry : ∀ s, entry = some s → stat_ok clock s) (hc : clock ≤ now)
    (h0 : 0 ≤ now) :
    ∀ s, (entry_step h entry mask now).1 = some s → stat_ok now s := by
  intro s hs
  cases entry with
  | none =>
    unfold entry_step at hs
    cases hm : h.malloc_ok <;> cases ht : h.trie_set_ok <;> simp [hm, ht] at hs
    subst hs
    exact ⟨h0, le_refl _, ⟨by simp [INT_MIN], by simp [INT_MAX]⟩, Or.inl rfl, by simp; omega⟩
  | some data =>
    simp only [entry_step, Option.some.injEq] at hs
    subst hs
    exact known_step_keeps_stat_ok data mask clock now (hentry data rfl) hc h0

/-- One call of `update_file_stats` keeps the invariant on every record. -/
theorem update_file_stats_keeps_stat_ok (h : heap_t) (w : fswatch_t) (e : inotify_event)
    (clock now : Int) (hw : ∀ k s, trie_get w.stats k = some s → stat_ok clock s)
    (hc : clock ≤ now) (h0 : 0 ≤ now) :
    ∀ k s, trie_get (update_file_stats h w e now).1.stats k = some s → stat_ok now s := by
  intro k s hk
  by_cases hkn : k = fname e
  · subst hkn
    rw [update_file_stats_get_same] at hk
    exact entry_step_keeps_stat_ok h _ e.mask clock now (hw (fname e)) hc h0 s hk
  · rw [update_file_stats_get_other h w e now k hkn] at hk
    exact stat_ok_mono s clock now (hw k s hk) hc

/-- The last clock value of a well-timed history is not before its bound. -/
theorem le_last_clock (evs : List (heap_t × inotify_event × Int)) :
    ∀ lo : Int, clock_ok lo evs = true → lo ≤ last_clock lo evs := by
  induction evs with
  | nil => intro lo _; exact le_refl _
  | cons x rest ih =>
    intro lo hok
    obtain ⟨h, e, now⟩ := x
    simp only [clock_ok, Bool.and_eq_true, decide_eq_true_eq] at hok
    have := ih now hok.2
    simp only [last_clock]
    omega

/-- A well-timed history keeps the invariant on every record. -/
theorem feed_keeps_stat_ok (evs : List (heap_t × inotify_event × Int)) :
    ∀ (w : fswatch_t) (lo : Int), 0 ≤ lo → clock_ok lo evs = true →
      (∀ k s, trie_get w.stats k = some s → stat_ok lo s) →
      ∀ k s, trie_get (feed w evs).1.stats k = some s → stat_ok (last_clock lo evs) s := by
  induction evs with
  | nil => intro w lo _ _ hw k s hk; exact hw k s hk
  | cons x rest ih =>
    intro w lo h0 hok hw k s hk
    obtain ⟨h, e, now⟩ := x
    simp only [clock_ok, Bool.and_eq_true, decide_eq_true_eq] at hok
    simp only [feed] at hk
    simp only [last_clock]
    exact ih (update_file_stats h w e now).1 now (by omega) hok.2
      (update_file_stats_keeps_stat_ok h w e lo now hw hok.1 (by omega)) k s hk

/-- Every record reachable from the empty map by a history with non-negative,
non-decreasing clock values satisfies the invariant. -/
theorem reachable_stat_ok (fd : Int) (evs : List (heap_t × inotify_event × Int))
    (hok : clock_ok 0 evs = true) (k : String) (s : notif_stat_t)
    (hk : trie_get (feed ⟨fd, trie_create⟩ evs).1.stats k = some s) :
    stat_ok (last_clock 0 evs) s :=
  feed_keeps_stat_ok evs ⟨fd, trie_create⟩ 0 (le_refl _) hok
    (fun k s h => by simp [trie_get, trie_create] at h) k s hk

end inotify

/-! ## C11, C18: what holds of every reachable record -/

namespace inotify

/-- C11 (as stated, refuted): six `IN_MODIFY` events for `a` at clock value
10 leave the record with `banned_until = 15`; at the later query time 20 the
entry is not banned any more (`20 < 15` is false) although `banned_until`
is not 0. -/
theorem expired_ban_keeps_banned_until :
    clock_ok 0
      [(⟨true, 0, true⟩, ⟨IN_MODIFY, 2, "a"⟩, 10), (⟨true, 0, true⟩, ⟨IN_MODIFY, 2, "a"⟩, 10),
       (⟨true, 0, true⟩, ⟨IN_MODIFY, 2, "a"⟩, 10), (⟨true, 0, true⟩, ⟨IN_MODIFY, 2, "a"⟩, 10),
       (⟨true, 0, true⟩, ⟨IN_MODIFY, 2, "a"⟩, 10), (⟨true, 0, true⟩, ⟨IN_MODIFY, 2, "a"⟩, 10)]
      = true ∧
    trie_get (feed ⟨3, trie_create⟩
      [(⟨true, 0, true⟩, ⟨IN_MODIFY, 2, "a"⟩, 10), (⟨true, 0, true⟩, ⟨IN_MODIFY, 2, "a"⟩, 10),
       (⟨true, 0, true⟩, ⟨IN_MODIFY, 2, "a"⟩, 10), (⟨true, 0, true⟩, ⟨IN_MODIFY, 2, "a"⟩, 10),
       (⟨true, 0, true⟩, ⟨IN_MODIFY, 2, "a"⟩, 10), (⟨true, 0, true⟩, ⟨IN_MODIFY, 2, "a"⟩, 10)]
      ).1.stats "a" = some ⟨10, 15, IN_MODIFY, 6⟩ ∧
    ¬ ((⟨10, 15, IN_MODIFY, 6⟩ : notif_stat_t).banned_until = 0 ↔
        ¬ (20 : Int) < (⟨10, 15, IN_MODIFY, 6⟩ : notif_stat_t).banned_until) := by
  decide

/-- C11 (amended): in every record reachable from the empty map by events
with non-negative, non-decreasing clock values, and for every query time not
before the last event, `banned_until = 0` implies that the entry is not
currently banned (equivalently, a currently banned entry has
`banned_until ≠ 0`), whatever `count` is.  The converse is not claimed: once a
ban has run out `banned_until` keeps its value, which is 0 or at least 5. -/
theorem unbanned_flag_implies_not_banned (fd : Int)
    (evs : List (heap_t × inotify_event × Int)) (name : String) (s : notif_stat_t) (now : Int)
    (hok : clock_ok 0 evs = true)
    (hget : trie_get (feed ⟨fd, trie_create⟩ evs).1.stats name = some s)
    (hlater : last_clock 0 evs ≤ now) :
    (s.banned_until = 0 → ¬ now < s.banned_until) ∧
    (now < s.banned_until → s.banned_until ≠ 0) ∧
    (s.banned_until = 0 ∨ 5 ≤ s.banned_until) := by
  obtain ⟨h1, h2, h3, h4, h5⟩ := reachable_stat_ok fd evs hok name s hget
  have h0 := le_last_clock evs 0 hok
  refine ⟨fun hz => by omega, fun hb => by omega, h4⟩

/-- C11 (amended) on the record of `a` after six `IN_MODIFY` events at clock
value 10, queried at clock value 20. -/
theorem unbanned_flag_implies_not_banned_witness :
    ((⟨10, 15, IN_MODIFY, 6⟩ : notif_stat_t).banned_until = 0 →
      ¬ (20 : Int) < (⟨10, 15, IN_MODIFY, 6⟩ : notif_stat_t).banned_until) ∧
    ((20 : Int) < (⟨10, 15, IN_MODIFY, 6⟩ : notif_stat_t).banned_until →
      (⟨10, 15, IN_MODIFY, 6⟩ : notif_stat_t).banned_until ≠ 0) ∧
    ((⟨10, 15, IN_MODIFY, 6⟩ : notif_stat_t).banned_until = 0 ∨
      5 ≤ (⟨10, 15, IN_MODIFY, 6⟩ : notif_stat_t).banned_until) :=
  unbanned_flag_implies_not_banned 3
    [(⟨true, 0, true⟩, ⟨IN_MODIFY, 2, "a"⟩, 10), (⟨true, 0, true⟩, ⟨IN_MODIFY, 2, "a"⟩, 10),
     (⟨true, 0, true⟩, ⟨IN_MODIFY, 2, "a"⟩, 10), (⟨true, 0, true⟩, ⟨IN_MODIFY, 2, "a"⟩, 10),
     (⟨true, 0, true⟩, ⟨IN_MODIFY, 2, "a"⟩, 10), (⟨true, 0, true⟩, ⟨IN_MODIFY, 2, "a"⟩, 10)]
    "a" ⟨10, 15, IN_MODIFY, 6⟩ 20 (by decide) (by decide) (by decide)

/-- In every record reachable from the empty map by events with
non-negative, non-decreasing clock values, `count` is an `int` and
`banned_until <= last_update + 5`; hence an event for that name processed at a
clock value `now >= last_update + 5` is reported by `update_file_stats`,
whatever its mask and whatever `count` has become. -/
theorem ban_ends_five_seconds_after_last_update (fd : Int)
    (evs : List (heap_t × inotify_event × Int)) (name : String) (s : notif_stat_t)
    (hok : clock_ok 0 evs = true)
    (hget : trie_get (feed ⟨fd, trie_create⟩ evs).1.stats name = some s) :
    (INT_MIN ≤ s.count ∧ s.count ≤ INT_MAX) ∧ s.banned_until ≤ s.last_update + 5 ∧
    ∀ (h : heap_t) (e : inotify_event) (now : Int), fname e = name →
      s.last_update + 5 ≤ now →
      (update_file_stats h (feed ⟨fd, trie_create⟩ evs).1 e now).2 = true := by
  obtain ⟨h1, h2, h3, h4, h5⟩ := reachable_stat_ok fd evs hok name s hget
  refine ⟨h3, h5, ?_⟩
  intro h e now hname hnow
  subst hname
  rw [update_file_stats_known h _ e now s hget]
  exact known_step_after_ban s e.mask now (by omega) (by omega)

end inotify

/-! ## C13: construction either succeeds completely or leaves nothing behind -/

/-- C13: in both variants `fswatch_create` returns either `NULL` with no
resource of the call still held, or a complete handle together with exactly
the resources that handle owns.  The inotify variant fails exactly when
`malloc`, `trie_create`, `inotify_init1` or `inotify_add_watch` fails; the
polling variant exactly when `malloc`, `filemon_from_file` or `strdup`
fails. -/
theorem fswatch_create_all_or_nothing (env : inotify.create_env) (path : String)
    {filemon_t : Type} (malloc_ok strdup_ok : Bool)
    (filemon_from_file : String → Option filemon_t) :
    ((inotify.fswatch_create env path = (none, []) ∧
        (env.malloc_ok = false ∨ env.trie_create_ok = false ∨
          env.inotify_init1 (inotify.IN_NONBLOCK ||| inotify.IN_CLOEXEC) = -1 ∨
          env.inotify_add_watch (env.inotify_init1 (inotify.IN_NONBLOCK ||| inotify.IN_CLOEXEC))
            path
            (inotify.IN_ATTRIB ||| inotify.IN_MODIFY ||| inotify.IN_CREATE |||
              inotify.IN_DELETE ||| inotify.IN_MOVED_FROM ||| inotify.IN_MOVED_TO |||
              inotify.IN_EXCL_UNLINK ||| inotify.IN_CLOSE_WRITE) = -1)) ∨
      (inotify.fswatch_create env path =
          (some ⟨env.inotify_init1 (inotify.IN_NONBLOCK ||| inotify.IN_CLOEXEC),
            inotify.trie_create⟩,
            [resource_t.inotify_fd, resource_t.stats_trie, resource_t.handle]) ∧
        env.malloc_ok = true ∧ env.trie_create_ok = true ∧
        env.inotify_init1 (inotify.IN_NONBLOCK ||| inotify.IN_CLOEXEC) ≠ -1 ∧
        env.inotify_add_watch (env.inotify_init1 (inotify.IN_NONBLOCK ||| inotify.IN_CLOEXEC))
          path
          (inotify.IN_ATTRIB ||| inotify.IN_MODIFY ||| inotify.IN_CREATE |||
            inotify.IN_DELETE ||| inotify.IN_MOVED_FROM ||| inotify.IN_MOVED_TO |||
            inotify.IN_EXCL_UNLINK ||| inotify.IN_CLOSE_WRITE) ≠ -1)) ∧
    ((poll.fswatch_create malloc_ok filemon_from_file strdup_ok path = (none, []) ∧
        (malloc_ok = false ∨ filemon_from_file path = none ∨ strdup_ok = false)) ∨
      (∃ f, filemon_from_file path = some f ∧ malloc_ok = true ∧ strdup_ok = true ∧
        poll.fswatch_create malloc_ok filemon_from_file strdup_ok path =
          (some ⟨f, path⟩, [resource_t.path_copy, resource_t.handle]))) := by
  constructor
  · unfold inotify.fswatch_create
    cases hm : env.malloc_ok
    · left; simp
    · cases ht : env.trie_create_ok
      · left; simp [List.erase]
      · by_cases hfd : env.inotify_init1 (inotify.IN_NONBLOCK ||| inotify.IN_CLOEXEC) = -1
        · left; simp [hfd, List.erase]
        · by_cases hwd : env.inotify_add_watch
              (env.inotify_init1 (inotify.IN_NONBLOCK ||| inotify.IN_CLOEXEC)) path
              (inotify.IN_ATTRIB ||| inotify.IN_MODIFY ||| inotify.IN_CREATE |||
                inotify.IN_DELETE ||| inotify.IN_MOVED_FROM ||| inotify.IN_MOVED_TO |||
                inotify.IN_EXCL_UNLINK ||| inotify.IN_CLOSE_WRITE) = -1
          · left; simp [hfd, hwd, List.erase]
          · right; simp [hfd, hwd]
  · unfold poll.fswatch_create
    cases malloc_ok
    · left; simp
    · cases hf : filemon_from_file path with
      | none => left; simp [List.erase]
      | some f =>
        cases strdup_ok
        · left; simp [List.erase]
        · right; exact ⟨f, rfl, rfl, rfl, by simp⟩

/-! ## Containment of kind-sets -/

namespace inotify

theorem testBit_bnot32 (b i : Nat) :
    (bnot32 b).testBit i = (decide (i < 32) && !b.testBit i) := by
  simp only [bnot32, Nat.testBit_xor, Nat.testBit_two_pow_sub_one, Nat.testBit_mod_two_pow]
  by_cases hi : i < 32 <;> cases b.testBit i <;> simp [hi]

theorem testBit_of_uint32 (m i : Nat) (hm : m < 2 ^ 32) (hi : ¬ i < 32) :
    m.testBit i = false := by
  apply Nat.testBit_eq_false_of_lt
  calc m < 2 ^ 32 := hm
    _ ≤ 2 ^ i := Nat.pow_le_pow_right (by decide) (by omega)

/-- The test `!(mask & ~ban_mask)` of line 204 holds exactly when every kind
of `mask` is in `ban_mask`, i.e. when `mask & ban_mask` is `mask`. -/
theorem and_bnot32_eq_zero_iff (m b : Nat) (hm : m < 2 ^ 32) :
    m &&& bnot32 b = 0 ↔ m &&& b = m := by
  constructor
  · intro h
    apply Nat.eq_of_testBit_eq
    intro i
    have hi := congrArg (fun x => Nat.testBit x i) h
    simp only [Nat.testBit_and, testBit_bnot32, Nat.zero_testBit] at hi ⊢
    by_cases h32 : i < 32
    · cases hmi : m.testBit i <;> cases hbi : b.testBit i <;> simp [hmi, hbi, h32] at hi ⊢
    · simp [testBit_of_uint32 m i hm h32]
  · intro h
    apply Nat.eq_of_testBit_eq
    intro i
    have hi := congrArg (fun x => Nat.testBit x i) h
    simp only [Nat.testBit_and, testBit_bnot32, Nat.zero_testBit] at hi ⊢
    cases hmi : m.testBit i <;> cases hbi : b.testBit i <;> simp [hmi, hbi] at hi ⊢

/-- Storing the record a name already has changes nothing. -/
theorem trie_set_get_self (t : trie_t) (k : String) (v : notif_stat_t)
    (hget : trie_get t k = some v) : trie_set t k v = t := by
  funext x
  by_cases hx : x = k
  · subst hx; simpa [trie_set, trie_get] using hget.symm
  · simp [trie_set, hx]

/-- The verdict on a record, for an event without an important kind. -/
theorem known_step_ordinary_verdict (s : notif_stat_t) (mask : Nat) (now : Int)
    (hmask : mask &&& IMPORTANT_EVENTS = 0) :
    ((known_step s mask now).2 = false ↔
      now < s.banned_until ∧ mask &&& bnot32 s.ban_mask = 0) := by
  by_cases hb : now < s.banned_until ∧ mask &&& bnot32 s.ban_mask = 0
  · simp [known_step, hmask, hb]
  · simp only [known_step, hmask]
    simp [hb]

end inotify

/-! ## C14: when an event is suppressed -/

namespace inotify

/-- C14: for a known name, a clock value `now >= 0` and an event (with a
32 bit mask), `update_file_stats` returns zero exactly when the mask has no
important kind, `now < banned_until`, and every kind of the mask is in
`ban_mask`; and whenever it returns zero the watcher, with all entries of the
statistics map, is left as it was. -/
theorem suppressed_iff_banned_without_new_kind (h : heap_t) (w : fswatch_t)
    (e : inotify_event) (now : Int) (data : notif_stat_t)
    (hget : trie_get w.stats (fname e) = some data) (hnow : 0 ≤ now)
    (hm : e.mask < 2 ^ 32) :
    ((update_file_stats h w e now).2 = false ↔
      e.mask &&& IMPORTANT_EVENTS = 0 ∧ now < data.banned_until ∧
        e.mask &&& data.ban_mask = e.mask) ∧
    ((update_file_stats h w e now).2 = false → (update_file_stats h w e now).1 = w) := by
  rw [update_file_stats_known h w e now data hget]
  by_cases himp : e.mask &&& IMPORTANT_EVENTS = 0
  · have hv := known_step_ordinary_verdict data e.mask now himp
    rw [and_bnot32_eq_zero_iff e.mask data.ban_mask hm] at hv
    refine ⟨?_, ?_⟩
    · simp only [hv, himp, true_and]
    · intro hsup
      have hb := hv.mp hsup
      rw [← and_bnot32_eq_zero_iff e.mask data.ban_mask hm] at hb
      simp only [known_step_suppressed data e.mask now himp hb.1 hb.2,
        trie_set_get_self w.stats (fname e) data hget]
  · rw [known_step_important data e.mask now himp hnow]
    simp [himp]

/-- C14 on a record banned until 15 with `ban_mask = IN_MODIFY`, at clock
value 12: `IN_MODIFY` is suppressed and the map keeps its entries. -/
theorem suppressed_iff_banned_without_new_kind_witness :
    (update_file_stats ⟨true, 0, true⟩ ⟨3, trie_set trie_create "a" ⟨10, 15, IN_MODIFY, 6⟩⟩
      ⟨IN_MODIFY, 2, "a"⟩ 12).2 = false ∧
    (update_file_stats ⟨true, 0, true⟩ ⟨3, trie_set trie_create "a" ⟨10, 15, IN_MODIFY, 6⟩⟩
      ⟨IN_MODIFY, 2, "a"⟩ 12).1 = ⟨3, trie_set trie_create "a" ⟨10, 15, IN_MODIFY, 6⟩⟩ := by
  have h := suppressed_iff_banned_without_new_kind ⟨true, 0, true⟩
    ⟨3, trie_set trie_create "a" ⟨10, 15, IN_MODIFY, 6⟩⟩ ⟨IN_MODIFY, 2, "a"⟩ 12
    ⟨10, 15, IN_MODIFY, 6⟩ (by decide) (by decide) (by decide)
  have hsup := h.1.mpr (by decide)
  exact ⟨hsup, h.2 hsup⟩

end inotify

/-! ## C15: what a reported event does to a known record -/

namespace inotify

/-- The statements after the lookup, in terms of the record after the
important-event reset. -/
theorem known_step_after_reset (data : notif_stat_t) (mask : Nat) (now : Int) :
    known_step data mask now =
      if now < (unban_if_important data mask).banned_until ∧
          mask &&& bnot32 (unban_if_important data mask).ban_mask = 0 then
        (unban_if_important data mask, false)
      else if (if now - (unban_if_important data mask).last_update ≤ 1 then
          int_wrap ((unban_if_important data mask).count + 1) else 1) > HITS_TO_BAN_AFTER then
        (⟨now, now + BAN_SECS, mask,
          if now - (unban_if_important data mask).last_update ≤ 1 then
            int_wrap ((unban_if_important data mask).count + 1) else 1⟩, true)
      else
        (⟨now, (unban_if_important data mask).banned_until,
          (unban_if_important data mask).ban_mask,
          if now - (unban_if_important data mask).last_update ≤ 1 then
            int_wrap ((unban_if_important data mask).count + 1) else 1⟩, true) := by
  unfold known_step
  simp only [← unban_if_important.eq_1]
  split_ifs <;> rfl

/-- C15 (as stated, refuted): `IN_DELETE` for the known name `a` at clock
value 12, on a record that is banned until 17 with `count = 6`, is reported
(not suppressed) and leaves `count = 2`, which is not greater than 5; yet the
ban field `banned_until` has changed, from 17 to 0. -/
theorem important_event_changes_ban_field :
    IN_DELETE &&& IMPORTANT_EVENTS ≠ 0 ∧
    (update_file_stats ⟨true, 0, true⟩ ⟨3, trie_set trie_create "a" ⟨12, 17, IN_MODIFY, 6⟩⟩
      ⟨IN_DELETE, 2, "a"⟩ 12).2 = true ∧
    trie_get (update_file_stats ⟨true, 0, true⟩
      ⟨3, trie_set trie_create "a" ⟨12, 17, IN_MODIFY, 6⟩⟩ ⟨IN_DELETE, 2, "a"⟩ 12).1.stats "a"
      = some ⟨12, 0, IN_MODIFY, 2⟩ := by
  decide

/-- Why the amended statement on reported events asks for a counter below
`INT_MAX`: there the increment of line 210 overflows; on this build the
counter wraps to `INT_MIN`, which is not greater than 5, so the event is
reported without entering a ban. -/
theorem reported_event_at_int_max :
    (update_file_stats ⟨true, 0, true⟩
      ⟨3, trie_set trie_create "a" ⟨10, 0, 0, 2147483647⟩⟩ ⟨IN_MODIFY, 2, "a"⟩ 10).2 = true ∧
    trie_get (update_file_stats ⟨true, 0, true⟩
      ⟨3, trie_set trie_create "a" ⟨10, 0, 0, 2147483647⟩⟩ ⟨IN_MODIFY, 2, "a"⟩ 10).1.stats "a"
      = some ⟨10, 0, 0, -2147483648⟩ := by
  decide

/-- C15 (amended): for an event on a known name, with `prev` the record
after the important-event reset of lines 196-201 and `prev.count` an `int`
below `INT_MAX`: when the event is not suppressed, `count` becomes
`prev.count + 1` if `now - last_update <= 1` and 1 otherwise, `last_update`
becomes `now`, and the ban fields are those of `prev` unless the new `count`
is greater than 5, in which case `ban_mask` is the mask of the event and
`banned_until = now + 5`.  Ban fields that differ from those of `prev`
therefore come from a reported event that brought `count` above 5; compared
with the stored record, the only other change of a ban field is the reset
`banned_until = 0` of an important event. -/
theorem reported_event_counts_and_bans (h : heap_t) (w : fswatch_t) (e : inotify_event)
    (now : Int) (data : notif_stat_t) (hget : trie_get w.stats (fname e) = some data)
    (hmin : INT_MIN ≤ (unban_if_important data e.mask).count)
    (hmax : (unban_if_important data e.mask).count < INT_MAX) :
    ∃ s, trie_get (update_file_stats h w e now).1.stats (fname e) = some s ∧
      ((update_file_stats h w e now).2 = true →
        s.count = (if now - (unban_if_important data e.mask).last_update ≤ 1 then
          (unban_if_important data e.mask).count + 1 else 1) ∧
        s.last_update = now ∧
        (5 < s.count → s.ban_mask = e.mask ∧ s.banned_until = now + 5) ∧
        (¬ 5 < s.count → s.ban_mask = (unban_if_important data e.mask).ban_mask ∧
          s.banned_until = (unban_if_important data e.mask).banned_until)) ∧
      ((s.ban_mask ≠ (unban_if_important data e.mask).ban_mask ∨
          s.banned_until ≠ (unban_if_important data e.mask).banned_until) →
        (update_file_stats h w e now).2 = true ∧ 5 < s.count) ∧
      ((s.ban_mask ≠ data.ban_mask ∨ s.banned_until ≠ data.banned_until) →
        5 < s.count ∨
          (e.mask &&& IMPORTANT_EVENTS ≠ 0 ∧ s.banned_until = 0 ∧
            s.ban_mask = data.ban_mask)) := by
  have hw : int_wrap ((unban_if_important data e.mask).count + 1) =
      (unban_if_important data e.mask).count + 1 := by
    unfold INT_MIN at hmin
    unfold INT_MAX at hmax
    exact int_wrap_of_range _ (by omega) (by omega)
  rw [update_file_stats_known h w e now data hget]
  refine ⟨_, trie_get_set_same _ _ _, ?_, ?_, ?_⟩
  · rw [known_step_after_reset, hw]
    simp only [HITS_TO_BAN_AFTER, BAN_SECS]
    split_ifs <;> simp_all
  · rw [known_step_after_reset, hw]
    simp only [HITS_TO_BAN_AFTER, BAN_SECS]
    split_ifs <;> simp_all
  · rw [known_step_after_reset, hw]
    simp only [HITS_TO_BAN_AFTER, BAN_SECS]
    by_cases himp : e.mask &&& IMPORTANT_EVENTS = 0
    · have hprev : unban_if_important data e.mask = data := by simp [unban_if_important, himp]
      rw [hprev]
      split_ifs <;> simp_all
    · have hprev : unban_if_important data e.mask =
          ⟨data.last_update, 0, data.ban_mask, 1⟩ := by simp [unban_if_important, himp]
      rw [hprev]
      split_ifs <;> simp_all

/-- C15 (amended) on a record with `count = 5` inside a burst: the sixth
`IN_MODIFY` event is reported and enters the ban. -/
theorem reported_event_counts_and_bans_witness :
    ∃ s, trie_get (update_file_stats ⟨true, 0, true⟩
        ⟨3, trie_set trie_create "a" ⟨10, 0, 0, 5⟩⟩ ⟨IN_MODIFY, 2, "a"⟩ 10).1.stats "a" = some s ∧
      s.count = 6 ∧ s.last_update = 10 ∧ s.ban_mask = IN_MODIFY ∧ s.banned_until = 15 := by
  obtain ⟨s, hs, hrep, _, _⟩ := reported_event_counts_and_bans ⟨true, 0, true⟩
    ⟨3, trie_set trie_create "a" ⟨10, 0, 0, 5⟩⟩ ⟨IN_MODIFY, 2, "a"⟩ 10 ⟨10, 0, 0, 5⟩ (by decide)
    (by decide) (by decide)
  obtain ⟨hc, hl, hban, _⟩ := hrep (by decide)
  have hc6 : s.count = 6 := hc.trans (by decide)
  obtain ⟨hm, hb⟩ := hban (by omega)
  exact ⟨s, hs, hc6, hl, hm, hb.trans (by decide)⟩

end inotify

namespace inotify

/-! ## C16: events without a name -/

/-- C16: for every watcher, mask and clock value, `update_file_stats` on an
event without a name (`len = 0`, whatever bytes `name` points at) gives the
same verdict and the same watcher as on an event with the same mask and the
name `"."`; the nameless event is accounted under the key `"."` and no other
entry is touched. -/
theorem nameless_event_accounted_under_dot (h : heap_t) (w : fswatch_t) (mask : Nat)
    (now : Int) (name : String) (len : Nat) :
    update_file_stats h w ⟨mask, 0, name⟩ now = update_file_stats h w ⟨mask, len, "."⟩ now ∧
    fname ⟨mask, 0, name⟩ = "." ∧
    ∀ k, k ≠ "." →
      trie_get (update_file_stats h w ⟨mask, 0, name⟩ now).1.stats k = trie_get w.stats k := by
  have h1 : fname ⟨mask, 0, name⟩ = "." := rfl
  have h2 : fname ⟨mask, len, "."⟩ = "." := by
    unfold fname
    split_ifs <;> rfl
  refine ⟨?_, h1, ?_⟩
  · rw [update_file_stats_entrywise, update_file_stats_entrywise, h1, h2]
  · intro k hk
    exact update_file_stats_get_other h w ⟨mask, 0, name⟩ now k (by rw [h1]; exact hk)

end inotify

/-! ## C17: alternating kinds are never suppressed -/

namespace inotify

/-- One event of mask `a` on an entry that is not banned, or was banned by
the event before with the mask `b`, and whose counter can take `m + 1` more
increments: it is reported, and the entry afterwards is not banned or banned
with the mask `a`, with room for `m` more increments. -/
theorem entry_step_alternating (h : heap_t) (entry : Option notif_stat_t) (a b : Nat)
    (now : Int) (m : Nat) (ha : a &&& IMPORTANT_EVENTS = 0) (hab : a &&& bnot32 b ≠ 0)
    (h0 : 0 ≤ now) (hm : ((m + 1 : Nat) : Int) ≤ 2147483647)
    (hentry : ∀ s, entry = some s →
      (-2147483648 ≤ s.count ∧ s.count + ((m + 1 : Nat) : Int) ≤ 2147483647) ∧
      (s.banned_until ≤ now ∨ (s.ban_mask = b ∧ 6 ≤ s.count ∧ s.last_update = now))) :
    (entry_step h entry a now).2 = true ∧
    ∀ s, (entry_step h entry a now).1 = some s →
      (-2147483648 ≤ s.count ∧ s.count + (m : Int) ≤ 2147483647) ∧
      (s.banned_until ≤ now ∨ (s.ban_mask = a ∧ 6 ≤ s.count ∧ s.last_update = now)) := by
  cases entry with
  | none =>
    unfold entry_step
    cases hm1 : h.malloc_ok <;> cases ht : h.trie_set_ok <;> simp
    push_cast at hm
    exact ⟨by omega, h0⟩
  | some data =>
    simp only [entry_step, Option.some.injEq]
    obtain ⟨⟨hlo, hhi⟩, hban⟩ := hentry data rfl
    push_cast at hhi
    have hw : int_wrap (data.count + 1) = data.count + 1 :=
      int_wrap_of_range _ (by omega) (by omega)
    rcases hban with hfree | ⟨hmask, hcount, hlast⟩
    · have hnb : ¬ now < data.banned_until := by omega
      constructor
      · simp [known_step, ha, hnb]
      · intro s hs
        subst hs
        simp only [known_step, ha, hnb, HITS_TO_BAN_AFTER, BAN_SECS, hw]
        split_ifs <;> (try dsimp only at *) <;> omega
    · have hpass : ¬ (now < data.banned_until ∧ a &&& bnot32 data.ban_mask = 0) := by
        rw [hmask]
        exact fun hc => hab hc.2
      constructor
      · simp only [known_step, ha]
        simp [hpass]
      · intro s hs
        subst hs
        have hnear : now - data.last_update ≤ 1 := by omega
        have hover : data.count + 1 > 5 := by omega
        simp only [known_step, ha, HITS_TO_BAN_AFTER, BAN_SECS]
        simp [hpass, hnear, hover, hw]
        omega

end inotify

namespace inotify

/-- A run of alternating masks over one name, short enough for the counter
and started on an entry that is not banned or was banned with the mask `b`:
every record is reported, and a ban that is running afterwards carries the
mask of the last record. -/
theorem alternating_run (now : Int) (name : String) (h0 : 0 ≤ now) :
    ∀ (rs : List record_t) (w : fswatch_t) (a b : Nat),
      a &&& IMPORTANT_EVENTS = 0 → b &&& IMPORTANT_EVENTS = 0 →
      a &&& bnot32 b ≠ 0 → b &&& bnot32 a ≠ 0 →
      alternates a b name rs = true →
      (rs.length : Int) ≤ 2147483647 →
      (∀ s, trie_get w.stats name = some s →
        (-2147483648 ≤ s.count ∧ s.count + (rs.length : Int) ≤ 2147483647) ∧
        (s.banned_until ≤ now ∨ (s.ban_mask = b ∧ 6 ≤ s.count ∧ s.last_update = now))) →
      verdicts now w rs = List.replicate rs.length true ∧
      ∀ s, trie_get (after_events now w rs).stats name = some s →
        s.banned_until ≤ now ∨
          ((∃ r, rs.getLast? = some r ∧ s.ban_mask = r.event.mask) ∨
            (rs = [] ∧ s.ban_mask = b)) := by
  intro rs
  induction rs with
  | nil =>
    intro w a b _ _ _ _ _ _ hw
    refine ⟨rfl, fun s hs => ?_⟩
    rcases (hw s hs).2 with hfree | ⟨hm, _, _⟩
    · exact Or.inl hfree
    · exact Or.inr (Or.inr ⟨rfl, hm⟩)
  | cons r rest ih =>
    intro w a b ha hb hab hba halt hlen hw
    simp only [alternates, Bool.and_eq_true, decide_eq_true_eq] at halt
    obtain ⟨⟨hmask, hname⟩, hrest⟩ := halt
    simp only [List.length_cons] at hlen hw
    have hstep := entry_step_alternating r.heap (trie_get w.stats (fname r.event)) a b now
      rest.length ha hab h0 hlen (by rw [hname]; exact hw)
    have hv : (update_file_stats r.heap w r.event now).2 = true := by
      rw [update_file_stats_verdict, hmask]; exact hstep.1
    have hw2 : ∀ s, trie_get (update_file_stats r.heap w r.event now).1.stats name = some s →
        (-2147483648 ≤ s.count ∧ s.count + (rest.length : Int) ≤ 2147483647) ∧
        (s.banned_until ≤ now ∨ (s.ban_mask = a ∧ 6 ≤ s.count ∧ s.last_update = now)) := by
      intro s hs
      rw [← hname, update_file_stats_get_same, hmask] at hs
      exact hstep.2 s hs
    have hlen2 : (rest.length : Int) ≤ 2147483647 := by push_cast at hlen; omega
    obtain ⟨hvs, hfin⟩ := ih (update_file_stats r.heap w r.event now).1 b a hb ha hba hab
      hrest hlen2 hw2
    refine ⟨?_, fun s hs => ?_⟩
    · simp only [verdicts, hv, hvs, List.length_cons, List.replicate_succ]
    · simp only [after_events] at hs
      rcases hfin s hs with hfree | ⟨r2, hlast, hm⟩ | ⟨hnil, hm⟩
      · exact Or.inl hfree
      · refine Or.inr (Or.inl ⟨r2, ?_, hm⟩)
        cases rest with
        | nil => simp at hlast
        | cons x l => simpa [List.getLast?_cons_cons] using hlast
      · subst hnil
        exact Or.inr (Or.inl ⟨r, by simp, by rw [hm, hmask]⟩)

/-- C17 (as stated, refuted): from the record that six `IN_MODIFY` events at
clock value 10 leave for the name `a` (banned until 15 with
`ban_mask = IN_MODIFY`), the alternating run `IN_MODIFY`, `IN_ATTRIB`,
`IN_MODIFY`, `IN_ATTRIB` at clock value 10 has its first record suppressed,
although the two masks have no important kind and neither is contained in
the other. -/
theorem alternating_run_first_suppressed :
    IN_MODIFY &&& IMPORTANT_EVENTS = 0 ∧ IN_ATTRIB &&& IMPORTANT_EVENTS = 0 ∧
    IN_MODIFY &&& IN_ATTRIB ≠ IN_MODIFY ∧ IN_ATTRIB &&& IN_MODIFY ≠ IN_ATTRIB ∧
    trie_get (feed ⟨3, trie_create⟩
      [(⟨true, 0, true⟩, ⟨IN_MODIFY, 2, "a"⟩, 10), (⟨true, 0, true⟩, ⟨IN_MODIFY, 2, "a"⟩, 10),
       (⟨true, 0, true⟩, ⟨IN_MODIFY, 2, "a"⟩, 10), (⟨true, 0, true⟩, ⟨IN_MODIFY, 2, "a"⟩, 10),
       (⟨true, 0, true⟩, ⟨IN_MODIFY, 2, "a"⟩, 10), (⟨true, 0, true⟩, ⟨IN_MODIFY, 2, "a"⟩, 10)]
      ).1.stats "a" = some ⟨10, 15, IN_MODIFY, 6⟩ ∧
    alternates IN_MODIFY IN_ATTRIB "a"
      [⟨⟨true, 0, true⟩, ⟨IN_MODIFY, 2, "a"⟩⟩, ⟨⟨true, 0, true⟩, ⟨IN_ATTRIB, 2, "a"⟩⟩,
       ⟨⟨true, 0, true⟩, ⟨IN_MODIFY, 2, "a"⟩⟩, ⟨⟨true, 0, true⟩, ⟨IN_ATTRIB, 2, "a"⟩⟩] = true ∧
    verdicts 10 (feed ⟨3, trie_create⟩
      [(⟨true, 0, true⟩, ⟨IN_MODIFY, 2, "a"⟩, 10), (⟨true, 0, true⟩, ⟨IN_MODIFY, 2, "a"⟩, 10),
       (⟨true, 0, true⟩, ⟨IN_MODIFY, 2, "a"⟩, 10), (⟨true, 0, true⟩, ⟨IN_MODIFY, 2, "a"⟩, 10),
       (⟨true, 0, true⟩, ⟨IN_MODIFY, 2, "a"⟩, 10), (⟨true, 0, true⟩, ⟨IN_MODIFY, 2, "a"⟩, 10)]
      ).1
      [⟨⟨true, 0, true⟩, ⟨IN_MODIFY, 2, "a"⟩⟩, ⟨⟨true, 0, true⟩, ⟨IN_ATTRIB, 2, "a"⟩⟩,
       ⟨⟨true, 0, true⟩, ⟨IN_MODIFY, 2, "a"⟩⟩, ⟨⟨true, 0, true⟩, ⟨IN_ATTRIB, 2, "a"⟩⟩]
      = [false, true, true, true] := by
  decide

/-- Why the amended statement on alternating kinds asks for a non-negative
clock value: at clock value `-1` the fresh record of an unseen name, with
`banned_until = 0`, counts as banned, and the never assigned `ban_mask` of
the block decides; here it holds `IN_MODIFY` and the third record is
suppressed. -/
theorem alternating_run_at_negative_clock :
    verdicts (-1) ⟨3, trie_create⟩
      [⟨⟨true, IN_MODIFY, true⟩, ⟨IN_MODIFY, 2, "a"⟩⟩, ⟨⟨true, 0, true⟩, ⟨IN_ATTRIB, 2, "a"⟩⟩,
       ⟨⟨true, 0, true⟩, ⟨IN_MODIFY, 2, "a"⟩⟩] = [true, true, false] := by
  decide

/-- C17 (amended): `ban_mask` is replaced when a ban is entered again, so
alternating kinds defeat the ban.  For every two 32 bit masks `a` and `b`
without important kinds and with neither contained in the other, and every
run of `n` records for one name with the masks `a`, `b`, `a`, `b`, ..., all
processed at one clock value `now >= 0`, started while the name is unseen or
not banned, and with `n` (plus the stored `count`, if there is one) not
above `INT_MAX`: every record is reported, and a ban that is running
afterwards carries the mask of the last record alone, not a union. -/
theorem alternating_kinds_never_suppressed (w : fswatch_t) (now : Int) (name : String)
    (a b : Nat) (rs : List record_t)
    (ha32 : a < 2 ^ 32) (hb32 : b < 2 ^ 32)
    (ha : a &&& IMPORTANT_EVENTS = 0) (hb : b &&& IMPORTANT_EVENTS = 0)
    (hab : a &&& b ≠ a) (hba : b &&& a ≠ b) (h0 : 0 ≤ now)
    (hlen : (rs.length : Int) ≤ INT_MAX)
    (hstart : ∀ s, trie_get w.stats name = some s →
      s.banned_until ≤ now ∧ INT_MIN ≤ s.count ∧ s.count + (rs.length : Int) ≤ INT_MAX)
    (halt : alternates a b name rs = true) :
    verdicts now w rs = List.replicate rs.length true ∧
    ∀ s, trie_get (after_events now w rs).stats name = some s → now < s.banned_until →
      ∃ r, rs.getLast? = some r ∧ s.ban_mask = r.event.mask := by
  have hab2 : a &&& bnot32 b ≠ 0 := fun hc => hab ((and_bnot32_eq_zero_iff a b ha32).mp hc)
  have hba2 : b &&& bnot32 a ≠ 0 := fun hc => hba ((and_bnot32_eq_zero_iff b a hb32).mp hc)
  unfold INT_MAX at hlen
  obtain ⟨hv, hfin⟩ := alternating_run now name h0 rs w a b ha hb hab2 hba2 halt hlen
    (fun s hs => by
      obtain ⟨h1, h2, h3⟩ := hstart s hs
      unfold INT_MIN at h2
      unfold INT_MAX at h3
      exact ⟨⟨h2, h3⟩, Or.inl h1⟩)
  refine ⟨hv, fun s hs hban => ?_⟩
  rcases hfin s hs with hfree | hlast | ⟨hnil, _⟩
  · omega
  · exact hlast
  · subst hnil
    simp only [after_events] at hs
    have := (hstart s hs).1
    omega

/-- C17 (amended) on eight records for the unseen name `a` that alternate
`IN_MODIFY` and `IN_ATTRIB` at clock value 10: all eight are reported. -/
theorem alternating_kinds_never_suppressed_witness :
    verdicts 10 ⟨3, trie_create⟩
      [⟨⟨true, 0, true⟩, ⟨IN_MODIFY, 2, "a"⟩⟩, ⟨⟨true, 0, true⟩, ⟨IN_ATTRIB, 2, "a"⟩⟩,
       ⟨⟨true, 0, true⟩, ⟨IN_MODIFY, 2, "a"⟩⟩, ⟨⟨true, 0, true⟩, ⟨IN_ATTRIB, 2, "a"⟩⟩,
       ⟨⟨true, 0, true⟩, ⟨IN_MODIFY, 2, "a"⟩⟩, ⟨⟨true, 0, true⟩, ⟨IN_ATTRIB, 2, "a"⟩⟩,
       ⟨⟨true, 0, true⟩, ⟨IN_MODIFY, 2, "a"⟩⟩, ⟨⟨true, 0, true⟩, ⟨IN_ATTRIB, 2, "a"⟩⟩]
      = [true, true, true, true, true, true, true, true] :=
  (alternating_kinds_never_suppressed ⟨3, trie_create⟩ 10 "a" IN_MODIFY IN_ATTRIB
    [⟨⟨true, 0, true⟩, ⟨IN_MODIFY, 2, "a"⟩⟩, ⟨⟨true, 0, true⟩, ⟨IN_ATTRIB, 2, "a"⟩⟩,
     ⟨⟨true, 0, true⟩, ⟨IN_MODIFY, 2, "a"⟩⟩, ⟨⟨true, 0, true⟩, ⟨IN_ATTRIB, 2, "a"⟩⟩,
     ⟨⟨true, 0, true⟩, ⟨IN_MODIFY, 2, "a"⟩⟩, ⟨⟨true, 0, true⟩, ⟨IN_ATTRIB, 2, "a"⟩⟩,
     ⟨⟨true, 0, true⟩, ⟨IN_MODIFY, 2, "a"⟩⟩, ⟨⟨true, 0, true⟩, ⟨IN_ATTRIB, 2, "a"⟩⟩]
    (by decide) (by decide) (by decide) (by decide) (by decide) (by decide) (by decide)
    (by decide) (fun s hs => by simp [trie_get, trie_create] at hs) (by decide)).1

/-- The record of the run above after its eight records: the ban entered by
the sixth record (`IN_ATTRIB`) was entered again by the seventh and by the
eighth, each time with the mask of that record alone. -/
theorem alternating_kinds_final_record :
    trie_get (after_events 10 ⟨3, trie_create⟩
      [⟨⟨true, 0, true⟩, ⟨IN_MODIFY, 2, "a"⟩⟩, ⟨⟨true, 0, true⟩, ⟨IN_ATTRIB, 2, "a"⟩⟩,
       ⟨⟨true, 0, true⟩, ⟨IN_MODIFY, 2, "a"⟩⟩, ⟨⟨true, 0, true⟩, ⟨IN_ATTRIB, 2, "a"⟩⟩,
       ⟨⟨true, 0, true⟩, ⟨IN_MODIFY, 2, "a"⟩⟩, ⟨⟨true, 0, true⟩, ⟨IN_ATTRIB, 2, "a"⟩⟩,
       ⟨⟨true, 0, true⟩, ⟨IN_MODIFY, 2, "a"⟩⟩, ⟨⟨true, 0, true⟩, ⟨IN_ATTRIB, 2, "a"⟩⟩]).stats
      "a" = some ⟨10, 15, IN_ATTRIB, 8⟩ := by
  decide

end inotify

/-- Four runs of the inotify `fswatch_create`: everything succeeds (the
handle owns descriptor, trie and block), `inotify_add_watch` fails,
`inotify_init1` fails, `trie_create` fails (nothing is held in all three). -/
theorem fswatch_create_examples :
    (inotify.fswatch_create ⟨true, true, fun _ => 3, fun _ _ _ => 1⟩ "/tmp").2 =
      [resource_t.inotify_fd, resource_t.stats_trie, resource_t.handle] ∧
    (inotify.fswatch_create ⟨true, true, fun _ => 3, fun _ _ _ => 1⟩ "/tmp").1.isSome = true ∧
    (inotify.fswatch_create ⟨true, true, fun _ => 3, fun _ _ _ => -1⟩ "/tmp").2 = [] ∧
    (inotify.fswatch_create ⟨true, true, fun _ => 3, fun _ _ _ => -1⟩ "/tmp").1.isSome = false ∧
    (inotify.fswatch_create ⟨true, true, fun _ => -1, fun _ _ _ => 1⟩ "/tmp").2 = [] ∧
    (inotify.fswatch_create ⟨true, false, fun _ => 3, fun _ _ _ => 1⟩ "/tmp").2 = [] := by
  decide

/-! ## C18: the counter of a long burst -/

namespace inotify

/-- The watcher after a history extended by further events. -/
theorem feed_append_fst (xs ys : List (heap_t × inotify_event × Int)) :
    ∀ w : fswatch_t, (feed w (xs ++ ys)).1 = (feed (feed w xs).1 ys).1 := by
  induction xs with
  | nil => intro w; rfl
  | cons x rest ih =>
    intro w
    obtain ⟨h, e, now⟩ := x
    exact ih (update_file_stats h w e now).1

theorem long_burst_succ (k : Nat) : long_burst (k + 1) = long_burst k ++ [burst_event k] := by
  simp [long_burst, List.range_succ]

/-- The clock values of a burst at clock value 10 are in order. -/
theorem clock_ok_map_burst_event (l : List Nat) :
    ∀ lo : Int, lo ≤ 10 → clock_ok lo (l.map burst_event) = true := by
  induction l with
  | nil => intro lo _; rfl
  | cons k rest ih =>
    intro lo hlo
    simp only [List.map_cons, burst_event, clock_ok, Bool.and_eq_true, decide_eq_true_eq]
    exact ⟨hlo, ih 10 (le_refl _)⟩

theorem clock_ok_long_burst (n : Nat) : clock_ok 0 (long_burst n) = true :=
  clock_ok_map_burst_event (List.range n) 0 (by decide)

theorem burst_mask_ordinary (k : Nat) : burst_mask k &&& IMPORTANT_EVENTS = 0 := by
  unfold burst_mask
  split_ifs <;> decide

/-- Consecutive events of the burst have kinds that are new to each other. -/
theorem burst_mask_new_kind (k : Nat) :
    burst_mask (k + 1) &&& bnot32 (burst_mask k) ≠ 0 := by
  unfold burst_mask
  have h : (k + 1) % 2 = 0 ↔ ¬ k % 2 = 0 := by omega
  by_cases hk : k % 2 = 0
  · have h2 : ¬ (k + 1) % 2 = 0 := by omega
    simp only [hk, h2, if_true, if_false]
    decide
  · have h2 : (k + 1) % 2 = 0 := by omega
    simp only [hk, h2, if_true, if_false]
    decide

/-- A reported event on a banned record that brings a new kind, with the
counter above the threshold afterwards and still in range: the ban is
entered again with the mask of this event. -/
theorem known_step_reenters_ban (s : notif_stat_t) (mask : Nat) (now : Int)
    (hmask : mask &&& IMPORTANT_EVENTS = 0) (hnew : mask &&& bnot32 s.ban_mask ≠ 0)
    (hnear : now - s.last_update ≤ 1) (hc : 5 < s.count + 1)
    (hhi : s.count + 1 ≤ 2147483647) :
    known_step s mask now = (⟨now, now + 5, mask, s.count + 1⟩, true) := by
  have hc2 : s.count + 1 > 5 := by omega
  have hw : int_wrap (s.count + 1) = s.count + 1 := int_wrap_of_range _ (by omega) hhi
  simp [known_step, hmask, hnew, hnear, HITS_TO_BAN_AFTER, BAN_SECS, hc2, hw]

/-- The same event when the counter is at `INT_MAX`: it is reported, the
counter wraps to `INT_MIN`, and the ban fields stay as they were. -/
theorem known_step_wraps (s : notif_stat_t) (mask : Nat) (now : Int)
    (hmask : mask &&& IMPORTANT_EVENTS = 0) (hnew : mask &&& bnot32 s.ban_mask ≠ 0)
    (hnear : now - s.last_update ≤ 1) (hc : s.count = 2147483647) :
    known_step s mask now =
      (⟨now, s.banned_until, s.ban_mask, -2147483648⟩, true) := by
  have hw : int_wrap (s.count + 1) = -2147483648 := by rw [hc]; decide
  simp [known_step, hmask, hnew, hnear, HITS_TO_BAN_AFTER, hw]

/-- The entry of `a` after one more event of the burst. -/
theorem get_long_burst_succ (k : Nat) :
    trie_get (feed ⟨3, trie_create⟩ (long_burst (k + 1))).1.stats "a" =
      (entry_step ⟨true, 0, true⟩
        (trie_get (feed ⟨3, trie_create⟩ (long_burst k)).1.stats "a") (burst_mask k) 10).1 := by
  rw [long_burst_succ, feed_append_fst]
  exact update_file_stats_get_same ⟨true, 0, true⟩ _ ⟨burst_mask k, 2, "a"⟩ 10

/-- From the sixth event on, and as long as the counter is in range, the
record of `a` is banned with the mask of the last event and counts the
events of the burst. -/
theorem record_after_long_burst (k : Nat) (h6 : 5 ≤ k) (hk : k + 1 ≤ 2147483647) :
    trie_get (feed ⟨3, trie_create⟩ (long_burst (k + 1))).1.stats "a" =
      some ⟨10, 15, burst_mask k, (k : Int) + 1⟩ := by
  induction k, h6 using Nat.le_induction with
  | base => decide
  | succ n hn ih =>
    rw [get_long_burst_succ, ih (by omega)]
    simp only [entry_step]
    rw [known_step_reenters_ban _ _ _ (burst_mask_ordinary _) (burst_mask_new_kind n)
      (by simp) (by simp; omega) (by simp; omega)]
    simp only [Option.some.injEq, notif_stat_t.mk.injEq]
    refine ⟨trivial, by norm_num, trivial, by push_cast; ring⟩

end inotify

namespace inotify

/-- The record of `a` after `n = k + 1` events of the burst, `n` from 6 to
`INT_MAX`. -/
theorem record_after_burst_of (k n : Nat) (hn : n = k + 1) (h6 : 5 ≤ k)
    (hk : k + 1 ≤ 2147483647) (c : Int) (hc : c = (k : Int) + 1) :
    trie_get (feed ⟨3, trie_create⟩ (long_burst n)).1.stats "a" =
      some ⟨10, 15, burst_mask k, c⟩ := by
  subst hn
  subst hc
  exact record_after_long_burst k h6 hk

/-- The entry of `a` after `n = k + 1` events of the burst. -/
theorem get_burst_of (k n : Nat) (hn : n = k + 1) :
    trie_get (feed ⟨3, trie_create⟩ (long_burst n)).1.stats "a" =
      (entry_step ⟨true, 0, true⟩
        (trie_get (feed ⟨3, trie_create⟩ (long_burst k)).1.stats "a") (burst_mask k) 10).1 := by
  subst hn
  exact get_long_burst_succ k

/-- The record of `a` after `INT_MAX` events of the burst: the counter is at
`INT_MAX`. -/
theorem record_at_int_max :
    trie_get (feed ⟨3, trie_create⟩ (long_burst 2147483647)).1.stats "a" =
      some ⟨10, 15, burst_mask 2147483646, 2147483647⟩ :=
  record_after_burst_of 2147483646 2147483647 (by decide) (by decide) (by decide)
    2147483647 (by decide)

/-- The record of `a` after `2 ^ 31` events of the burst: the increment of
line 210 has overflowed, the counter is at `INT_MIN` and the ban fields are
those left by the event before. -/
theorem record_after_overflow :
    trie_get (feed ⟨3, trie_create⟩ (long_burst 2147483648)).1.stats "a" =
      some ⟨10, 15, burst_mask 2147483646, -2147483648⟩ := by
  have h := get_burst_of 2147483647 2147483648 (by decide)
  rw [record_at_int_max] at h
  have hstep : known_step ⟨10, 15, burst_mask 2147483646, 2147483647⟩
      (burst_mask 2147483647) 10 =
      (⟨10, 15, burst_mask 2147483646, -2147483648⟩, true) :=
    known_step_wraps _ _ _ (burst_mask_ordinary _) (burst_mask_new_kind 2147483646)
      (by decide) rfl
  simp only [entry_step, hstep] at h
  exact h

/-- C18 (code defect): the burst of `2 ^ 31` events for the name `a`, kinds
alternating `IN_MODIFY` and `IN_ATTRIB`, all at clock value 10, starting from
the empty map.  Its clock values are non-negative and non-decreasing, every
event is counted, and the increment of line 210 overflows at the last event:
the reachable record of `a` has `count = INT_MIN`, which is not `>= 1`. -/
theorem count_overflows_in_long_burst :
    clock_ok 0 (long_burst 2147483648) = true ∧
    trie_get (feed ⟨3, trie_create⟩ (long_burst 2147483648)).1.stats "a" =
      some ⟨10, 15, burst_mask 2147483646, -2147483648⟩ ∧
    burst_mask 2147483646 = IN_MODIFY ∧
    ¬ (1 : Int) ≤ (⟨10, 15, burst_mask 2147483646, -2147483648⟩ : notif_stat_t).count :=
  ⟨clock_ok_long_burst _, record_after_overflow, by decide, by decide⟩

/-- After the overflow the ban is not entered again, so `ban_mask` still
holds the kind of the event before, and the next event of the alternation
(`IN_MODIFY`, event number `2 ^ 31` counted from 0) is suppressed: a run of
alternating kinds longer than `INT_MAX` is not reported throughout. -/
theorem alternation_suppressed_after_overflow :
    burst_mask 2147483648 = IN_MODIFY ∧
    (update_file_stats ⟨true, 0, true⟩ (feed ⟨3, trie_create⟩ (long_burst 2147483648)).1
      ⟨IN_MODIFY, 2, "a"⟩ 10).2 = false := by
  refine ⟨by decide, ?_⟩
  have hf : fname ⟨IN_MODIFY, 2, "a"⟩ = "a" := by decide
  have hget : trie_get (feed ⟨3, trie_create⟩ (long_burst 2147483648)).1.stats
      (fname ⟨IN_MODIFY, 2, "a"⟩) = some ⟨10, 15, burst_mask 2147483646, -2147483648⟩ := by
    rw [hf]
    exact record_after_overflow
  rw [update_file_stats_known _ _ _ 10 _ hget]
  have hk : known_step ⟨10, 15, burst_mask 2147483646, -2147483648⟩ IN_MODIFY 10 =
      (⟨10, 15, burst_mask 2147483646, -2147483648⟩, false) := by decide
  simp only [inotify_event.mask, hk]

end inotify
